import Mathlib

/-!
Verification of the sunstone-py dataset-registry and lineage engine.

This file contains a shallow embedding, in Lean 4, of the core of the
`sunstone` Python library (files `src/sunstone/lineage.py`,
`src/sunstone/datasets.py`, `src/sunstone/dataframe.py`), together with
theorems settling a list of claims about the library's behaviour.

Modelling conventions:
* Python dataclasses become Lean structures; Python `==` on dataclasses is
  structural equality of all fields, modelled by derived `DecidableEq`.
* Python `Optional[T]` becomes `Option T`; Python lists become `List`.
* Timestamps (`datetime.now()`) are modelled as natural numbers supplied
  explicitly by the caller (`now : Nat`).
* Filesystem state is an explicit value: a map from absolute, normalised
  path segments to an optional inode number (`none` = file does not exist).
* The network is an explicit function from URL to response, and DNS
  resolution is an explicit function from hostname to a list of addresses.
* Fallible Python code (raising exceptions) returns `Except Err _`.
-/

namespace Sunstone

/-- Errors raised by the library.  Each constructor corresponds to a Python
exception class raised by the source; the message string is carried verbatim
(f-string interpolations become string concatenation). -/
inductive Err where
  /-- Python `DatasetNotFoundError`. -/
  | datasetNotFoundError (msg : String)
  /-- Python `StrictModeError`. -/
  | strictModeError (msg : String)
  /-- Python `DatasetValidationError` (duplicate slug). -/
  | datasetValidationError (msg : String)
  /-- Python builtin `ValueError` (missing registration fields, SSRF-blocked
  URL, redirect without Location, too many redirects, no source URL). -/
  | valueError (msg : String)
  /-- Python builtin `FileNotFoundError`. -/
  | fileNotFoundError (msg : String)
  /-- Python `requests` raising for a non-2xx final status
  (`response.raise_for_status()`). -/
  | httpStatusError (code : Nat)
  deriving DecidableEq

/-- `lineage.py` (`SourceLocation`): location information for a data source. -/
structure SourceLocation where
  data : Option String := none
  metadata : Option String := none
  about : Option String := none
  deriving DecidableEq

/-- `lineage.py` (`Source`): source attribution information for a dataset. -/
structure Source where
  name : String
  location : SourceLocation
  attributed_to : String
  acquired_at : String
  acquisition_method : String
  license : String
  updated : Option String := none
  deriving DecidableEq

/-- `lineage.py` (`FieldSchema`): schema definition for a dataset field.
The opaque `constraints` dictionary is modelled as an association list. -/
structure FieldSchema where
  name : String
  type : String
  constraints : Option (List (String × String)) := none
  deriving DecidableEq

/-- `lineage.py` (`DatasetMetadata`): metadata for a dataset from
`datasets.yaml`. -/
structure DatasetMetadata where
  name : String
  slug : String
  location : String
  fields : List FieldSchema
  source : Option Source := none
  publish : Bool := false
  dataset_type : String := "input"
  deriving DecidableEq

/-- Column dtypes distinguished by `DataFrame._infer_field_schema`
(`dataframe.py`): integer, float, boolean, datetime64 and everything else
(`object`). -/
inductive Dtype where
  | integer
  | floating
  | boolean
  | datetime
  | object
  deriving DecidableEq

/-- A pandas DataFrame, abstracted to exactly what the core consults: named,
dtyped columns and rows of cells.  Cell values are strings (the tabular
engine itself is an external collaborator). -/
structure PandasDF where
  cols : List (String × Dtype)
  rows : List (List String)
  deriving DecidableEq

/-- A content fingerprint.  `lineage.py` (`compute_dataframe_hash`) computes
the SHA-256 hex digest of the pickled frame; the digest is idealised here as
a perfect (collision-free) fingerprint of the canonical content, so digest
equality coincides with content equality, which is the defining property the
specification assigns to the fingerprint. -/
structure Digest where
  content : PandasDF
  deriving DecidableEq

/-- `lineage.py` (`compute_dataframe_hash`): fingerprint of a frame's
current content (SHA-256 over the pickled bytes, idealised; see `Digest`). -/
def compute_dataframe_hash (df : PandasDF) : Digest := ⟨df⟩

/-- `lineage.py` (`LineageMetadata`): lineage metadata carried by every
wrapped table.  The `operations` field is used throughout `dataframe.py`.

Modelled from the spec: the `operations` field itself is absent from the
`LineageMetadata` definition in the sources (only its callers appear);
following the spec it is an ordered, append-only sequence of strings
describing transformations applied, defaulting to empty. -/
structure LineageMetadata where
  sources : List DatasetMetadata := []
  operations : List String := []
  created_at : Option Nat := none
  content_hash : Option Digest := none
  project_path : Option String := none
  deriving DecidableEq

/-- Python `a or b` on optional strings: `None` and the empty string are
falsy, any other string is truthy. -/
def pyOrStr : Option String → Option String → Option String
  | some s, b => if s = "" then b else some s
  | none, b => b

/-- `lineage.py` (`LineageMetadata.add_source`): append the dataset to
`sources` unless an equal dataset (Python `in`, i.e. structural equality of
all dataclass fields) is already present. -/
def LineageMetadata.add_source (l : LineageMetadata) (dataset : DatasetMetadata) :
    LineageMetadata :=
  if dataset ∈ l.sources then l else { l with sources := l.sources ++ [dataset] }

/-- Modelled from the spec: `LineageMetadata.add_operation` is absent from
the `lineage.py` sources (only its callers appear); following the spec it
appends the description to `operations` unconditionally. -/
def LineageMetadata.add_operation (l : LineageMetadata) (description : String) :
    LineageMetadata :=
  { l with operations := l.operations ++ [description] }

/-- One step of the source-accumulation loop in `LineageMetadata.merge`:
append the element unless it is already present. -/
def addIfAbsent (acc : List DatasetMetadata) (d : DatasetMetadata) :
    List DatasetMetadata :=
  if d ∈ acc then acc else acc ++ [d]

/-- `lineage.py` (`LineageMetadata.merge`): a new lineage whose sources are
a copy of `self.sources` followed by each source of `other` not already
present, and whose `project_path` is `self.project_path or
other.project_path`; all remaining fields take their dataclass defaults. -/
def LineageMetadata.merge (self other : LineageMetadata) : LineageMetadata :=
  { sources := other.sources.foldl addIfAbsent self.sources
    operations := []
    created_at := none
    content_hash := none
    project_path := pyOrStr self.project_path other.project_path }

theorem mem_foldl_addIfAbsent (l : List DatasetMetadata) (acc : List DatasetMetadata)
    (x : DatasetMetadata) :
    x ∈ l.foldl addIfAbsent acc ↔ x ∈ acc ∨ x ∈ l := by
  induction l generalizing acc with
  | nil => simp
  | cons a t ih =>
    simp only [List.foldl_cons, ih, addIfAbsent]
    by_cases h : a ∈ acc
    · simp only [if_pos h, List.mem_cons]
      constructor
      · rintro (hx | hx)
        · exact Or.inl hx
        · exact Or.inr (Or.inr hx)
      · rintro (hx | hx | hx)
        · exact Or.inl hx
        · exact Or.inl (hx ▸ h)
        · exact Or.inr hx
    · simp only [if_neg h, List.mem_append, List.mem_singleton, List.mem_cons]
      tauto

theorem foldl_addIfAbsent_of_subset (l : List DatasetMetadata)
    (acc : List DatasetMetadata) (h : ∀ x ∈ l, x ∈ acc) :
    l.foldl addIfAbsent acc = acc := by
  induction l generalizing acc with
  | nil => rfl
  | cons a t ih =>
    have ha : a ∈ acc := h a (List.mem_cons_self a t)
    simp only [List.foldl_cons, addIfAbsent, if_pos ha]
    exact ih acc (fun x hx => h x (List.mem_cons_of_mem a hx))

theorem foldl_addIfAbsent_structure (l : List DatasetMetadata)
    (acc : List DatasetMetadata) :
    ∃ t, l.foldl addIfAbsent acc = acc ++ t ∧ t.Sublist l ∧ ∀ x ∈ t, x ∉ acc := by
  induction l generalizing acc with
  | nil => exact ⟨[], by simp⟩
  | cons a rest ih =>
    by_cases h : a ∈ acc
    · obtain ⟨t, ht, hsub, hnot⟩ := ih acc
      refine ⟨t, ?_, hsub.cons a, hnot⟩
      simpa [addIfAbsent, if_pos h] using ht
    · obtain ⟨t, ht, hsub, hnot⟩ := ih (acc ++ [a])
      refine ⟨a :: t, ?_, hsub.cons₂ a, ?_⟩
      · simp only [List.foldl_cons, addIfAbsent, if_neg h] at ht ⊢
        simpa [List.append_assoc] using ht
      · intro x hx
        rcases List.mem_cons.mp hx with rfl | hx
        · exact h
        · intro hxacc
          exact hnot x hx (List.mem_append_left _ hxacc)

/-! ## Path model

Paths are strings manipulated as in Python's `pathlib` (POSIX flavour):
`Path(s)` drops empty and single-dot segments, `resolve()` additionally
eliminates `..` segments lexically (symlink resolution is out of scope), and
absolute paths are identified by a leading slash.  An absolute, normalised
path is represented by its list of segments. -/

/-- Split a character list at slashes. -/
def splitSegsAux : List Char → List Char → List (List Char)
  | [], cur => [cur.reverse]
  | c :: cs, cur =>
    if c = '/' then cur.reverse :: splitSegsAux cs [] else splitSegsAux cs (c :: cur)

/-- The `parts` of a path string, as in `pathlib` (spurious slashes and
single dots are collapsed; `..` segments are kept). -/
def pathParts (s : String) : List String :=
  ((splitSegsAux s.toList []).map (fun cs => String.mk cs)).filter
    (fun seg => !(seg == "" || seg == "."))

/-- `Path(s).is_absolute()`. -/
def isAbs (s : String) : Bool :=
  s.toList.head? == some '/'

/-- Join path segments with slashes. -/
def joinSegs : List String → String
  | [] => ""
  | [s] => s
  | s :: s2 :: rest => s ++ "/" ++ joinSegs (s2 :: rest)

/-- `str(Path(s))`: normalised string form of a path. -/
def pathStr (s : String) : String :=
  let parts := pathParts s
  if isAbs s then "/" ++ joinSegs parts
  else if parts.isEmpty then "." else joinSegs parts

/-- String form of a relative path given by its segments (`str(Path(*...))`). -/
def joinRel (parts : List String) : String :=
  if parts.isEmpty then "." else joinSegs parts

/-- String form of an absolute path given by its segments. -/
def joinAbs (parts : List String) : String :=
  "/" ++ joinSegs parts

/-- Lexical elimination of `..` segments, as done by `Path.resolve()`
(a `..` at the root stays at the root). -/
def resolveDots (parts : List String) : List String :=
  parts.foldl (fun acc p => if p = ".." then acc.dropLast else acc ++ [p]) []

/-- Resolve a possibly relative path string against an absolute project root:
`(project / s).resolve()` when relative, `Path(s).resolve()` when absolute. -/
def absResolve (project : List String) (s : String) : List String :=
  if isAbs s then resolveDots (pathParts s) else resolveDots (project ++ pathParts s)

/-- `Path(s).relative_to(base)`: purely lexical; `none` models the
`ValueError` raised when `base` is not a leading part of the path. -/
def relativeTo (parts base : List String) : Option (List String) :=
  if base.isPrefixOf parts then some (parts.drop base.length) else none

/-- `Path(s).name`: the final path segment, or the empty string. -/
def lastName (s : String) : String :=
  (pathParts s).getLast?.getD ""

/-- Index of the last occurrence of a dot in a name. -/
def lastDotIdxAux : List Char → Nat → Option Nat → Option Nat
  | [], _, best => best
  | c :: cs, i, best => lastDotIdxAux cs (i + 1) (if c = '.' then some i else best)

/-- `PurePath.suffix` computed on a final path segment `nm`: the part of the
name from the last dot on, empty when the dot is leading, trailing or
absent. -/
def nameSuffix (nm : String) : String :=
  let cs := nm.toList
  match lastDotIdxAux cs 0 none with
  | none => ""
  | some i => if 0 < i ∧ i + 1 < cs.length then String.mk (cs.drop i) else ""

/-- `Path(s).suffix`. -/
def pathSuffix (s : String) : String :=
  nameSuffix (lastName s)

/-- Lower-case a string (`str.lower()`), ASCII as used by the sources. -/
def lowerStr (s : String) : String :=
  String.mk (s.toList.map Char.toLower)

/-! ## Filesystem model -/

/-- The filesystem visible to the Dataset Resolver: a map from absolute,
normalised path segments to an inode number.  `none` means the file does not
exist; equal inodes model `Path.samefile` (hardlinks / identical files). -/
structure FS where
  inode : List String → Option Nat

/-- `Path.exists()`. -/
def FS.existsAt (fs : FS) (p : List String) : Bool :=
  (fs.inode p).isSome

/-- `Path.samefile`: both files exist and have the same inode. -/
def FS.sameFile (fs : FS) (p q : List String) : Bool :=
  match fs.inode p, fs.inode q with
  | some a, some b => a == b
  | _, _ => false

/-! ## Manifest store (`datasets.py`, `DatasetsManager`) -/

/-- A persisted lineage block on an output manifest entry
(`{content_hash, created_at, sources}`). -/
structure SourceRef where
  slug : String
  name : String
  location : String
  deriving DecidableEq

/-- The lineage block persisted on an output entry of `datasets.yaml`. -/
structure LineageBlock where
  content_hash : Digest
  created_at : Nat
  sources : List SourceRef
  deriving DecidableEq

/-- A raw manifest entry as stored in `datasets.yaml` (the parsed YAML
mapping held in `DatasetsManager._data`). -/
structure RawEntry where
  name : String
  slug : String
  location : String
  fields : List FieldSchema
  source : Option Source := none
  publish : Bool := false
  lineage : Option LineageBlock := none
  deriving DecidableEq

/-- The fields of a raw entry that `_parse_dataset` reads (everything except
the persisted lineage block). -/
def RawEntry.core (e : RawEntry) :
    String × String × String × List FieldSchema × Option Source × Bool :=
  (e.name, e.slug, e.location, e.fields, e.source, e.publish)

/-- The state of a `DatasetsManager`: the resolved project root, the
in-memory parsed manifest (`_data`), and the manifest file's persisted
contents (mirrored on every `_save`). -/
structure ManagerState where
  project : List String
  inputs : List RawEntry
  outputs : List RawEntry
  persistedInputs : List RawEntry
  persistedOutputs : List RawEntry
  deriving DecidableEq

/-- `DatasetsManager._load`: parse the manifest file into the two ordered
lists (missing keys default to empty lists, modelled by the caller handing
over the parsed lists); in-memory and persisted state agree after loading. -/
def DatasetsManager.load (project : List String) (inputs outputs : List RawEntry) :
    ManagerState :=
  { project := project, inputs := inputs, outputs := outputs,
    persistedInputs := inputs, persistedOutputs := outputs }

/-- `DatasetsManager._save`: rewrite the manifest file in full from the
in-memory state. -/
def ManagerState.save (st : ManagerState) : ManagerState :=
  { st with persistedInputs := st.inputs, persistedOutputs := st.outputs }

/-- `DatasetsManager._parse_dataset`. -/
def parseDataset (e : RawEntry) (dataset_type : String) : DatasetMetadata :=
  { name := e.name, slug := e.slug, location := e.location, fields := e.fields,
    source := e.source, publish := e.publish, dataset_type := dataset_type }

/-- `search_types = ["input", "output"] if dataset_type is None else
[dataset_type]`. -/
def searchTypes : Option String → List String
  | none => ["input", "output"]
  | some t => [t]

/-- `key = "inputs" if dtype == "input" else "outputs"`. -/
def ManagerState.entriesOf (st : ManagerState) (dtype : String) : List RawEntry :=
  if dtype = "input" then st.inputs else st.outputs

/-- `DatasetsManager.find_dataset_by_slug`: linear scan, inputs before
outputs unless a namespace is requested. -/
def find_dataset_by_slug (st : ManagerState) (slug : String)
    (dataset_type : Option String) : Option DatasetMetadata :=
  (searchTypes dataset_type).findSome? (fun dtype =>
    ((st.entriesOf dtype).find? (fun e => e.slug == slug)).map
      (fun e => parseDataset e dtype))

/-- The per-entry matching of `DatasetsManager.find_dataset_by_location`:
the four resolution strategies tried in order (exact string, equal resolved
absolute paths, same physical file, matching filename relocated into the
project root or a conventional subdirectory). -/
def matchesLocation (fs : FS) (project : List String) (location : String)
    (location_abs : List String) (locName : String) (e : RawEntry) : Bool :=
  let dl := e.location
  let dataset_abs := absResolve project dl
  dl == location
    || dataset_abs == location_abs
    || (fs.existsAt location_abs && fs.existsAt dataset_abs
         && fs.sameFile location_abs dataset_abs)
    || (fs.existsAt location_abs && !fs.existsAt dataset_abs
         && lastName dl == locName
         && ((if fs.existsAt (project ++ [lastName dl])
              then fs.sameFile location_abs (project ++ [lastName dl]) else false)
            || ["inputs", "outputs", "data"].any (fun subdir =>
                 let candidate := project ++ [subdir, lastName dl]
                 fs.existsAt candidate && fs.sameFile location_abs candidate)))

/-- `DatasetsManager.find_dataset_by_location`: normalise the requested
location (absolute paths are made project-relative when possible), resolve
it to an absolute path, then scan the requested namespaces in order and
return the first entry matched by any strategy. -/
def find_dataset_by_location (fs : FS) (st : ManagerState) (location0 : String)
    (dataset_type : Option String) : Option DatasetMetadata :=
  let location :=
    if isAbs location0 then
      match relativeTo (pathParts location0) st.project with
      | some rel => joinRel rel
      | none => pathStr location0
    else pathStr location0
  let location_abs := absResolve st.project location
  let locName := lastName location
  (searchTypes dataset_type).findSome? (fun dtype =>
    ((st.entriesOf dtype).find?
        (matchesLocation fs st.project location location_abs locName)).map
      (fun e => parseDataset e dtype))

/-- `DatasetsManager.get_absolute_path`: absolute locations are returned
as-is, relative ones are resolved against the project root. -/
def get_absolute_path (project : List String) (location : String) : List String :=
  if isAbs location then pathParts location
  else resolveDots (project ++ pathParts location)

/-- `DatasetsManager.add_output_dataset`: fail with `DuplicateSlug` when an
output with the slug exists, otherwise append the new raw entry to the
outputs and persist.  The state is returned alongside the result so that
the error case visibly leaves it unchanged. -/
def add_output_dataset (st : ManagerState) (name slug location : String)
    (fields : List FieldSchema) (publish : Bool) :
    ManagerState × Except Err DatasetMetadata :=
  if (find_dataset_by_slug st slug (some "output")).isSome then
    (st, .error (.datasetValidationError
      ("Output dataset with slug '" ++ slug ++ "' already exists")))
  else
    let e : RawEntry := { name := name, slug := slug, location := location,
                          fields := fields, source := none, publish := publish,
                          lineage := none }
    (ManagerState.save { st with outputs := st.outputs ++ [e] },
     .ok (parseDataset e "output"))

/-- Replace the first entry satisfying `p` by its image under `f`,
returning the updated list and the updated entry. -/
def updateFirst (p : RawEntry → Bool) (f : RawEntry → RawEntry) :
    List RawEntry → Option (List RawEntry × RawEntry)
  | [] => none
  | e :: rest =>
    if p e then some (f e :: rest, f e)
    else
      match updateFirst p f rest with
      | none => none
      | some (l, r) => some (e :: l, r)

/-- `DatasetsManager.update_output_dataset`: mutate only the supplied fields
of the first output with the slug and persist; fail with `EntryNotFound`
(`DatasetNotFoundError`) leaving the state unchanged when the slug is
absent. -/
def update_output_dataset (st : ManagerState) (slug : String)
    (fields : Option (List FieldSchema)) (location : Option String) :
    ManagerState × Except Err DatasetMetadata :=
  match updateFirst (fun e => e.slug == slug)
      (fun e => { e with fields := fields.getD e.fields,
                         location := location.getD e.location }) st.outputs with
  | some (outputs', e') =>
      (ManagerState.save { st with outputs := outputs' }, .ok (parseDataset e' "output"))
  | none =>
      (st, .error (.datasetNotFoundError
        ("Output dataset with slug '" ++ slug ++ "' not found")))

/-- The lineage block written for an output: the fingerprint of the written
content, a `created_at` bumped to `now` only when the fingerprint differs
from the previously persisted one, and the lineage's source references. -/
def lineageBlockFor (prev : Option LineageBlock) (newHash : Digest) (now : Nat)
    (lin : LineageMetadata) : LineageBlock :=
  { content_hash := newHash
    created_at :=
      match prev with
      | some b => if b.content_hash = newHash then b.created_at else now
      | none => now
    sources := lin.sources.map
      (fun s => { slug := s.slug, name := s.name, location := s.location }) }

/-- Modelled from the spec: `DatasetsManager.update_output_lineage` is called
by `DataFrame.to_csv` but its definition is absent from the sources.  Per the
spec it updates the manifest entry's lineage block after the physical write
succeeds: the content fingerprint of the written table is computed and
persisted, `created_at` is updated to the current time only when the newly
computed fingerprint differs from the previously persisted one for that
output slug, the lineage's source list is recorded, and the manifest is
persisted; it fails with `EntryNotFound` when the slug is not a registered
output.  A write to a registered location proceeds regardless of mode, so
the `strict` flag does not alter the update. -/
def update_output_lineage (st : ManagerState) (slug : String)
    (lin : LineageMetadata) (df : PandasDF) (strict : Bool) (now : Nat) :
    ManagerState × Except Err Unit :=
  let newHash := compute_dataframe_hash df
  match updateFirst (fun e => e.slug == slug)
      (fun e => { e with lineage := some (lineageBlockFor e.lineage newHash now lin) })
      st.outputs with
  | some (outputs', _) => (ManagerState.save { st with outputs := outputs' }, .ok ())
  | none =>
      (st, .error (.datasetNotFoundError
        ("Output dataset with slug '" ++ slug ++ "' not found")))

/-- The persisted lineage block of the output entry with the given slug. -/
def ManagerState.outputLineage (st : ManagerState) (slug : String) :
    Option LineageBlock :=
  (st.outputs.find? (fun e => e.slug == slug)).bind (fun e => e.lineage)

/-! ## DataFrame wrapper (`dataframe.py`) -/

namespace DataFrame

/-- `DataFrame._infer_field_schema`: map each column dtype to a dataset
field type (integer dtype to `integer`, float to `number`, boolean to
`boolean`, datetime to `datetime`, anything else to `string`). -/
def dtypeFieldType : Dtype → String
  | .integer => "integer"
  | .floating => "number"
  | .boolean => "boolean"
  | .datetime => "datetime"
  | .object => "string"

/-- `DataFrame._infer_field_schema`: one `FieldSchema` per column, carrying
the inferred type. -/
def infer_field_schema (df : PandasDF) : List FieldSchema :=
  df.cols.map (fun c => { name := c.1, type := dtypeFieldType c.2, constraints := none })

/-- The extension-to-format table of `DataFrame.read_dataset`. -/
def format_map : List (String × String) :=
  [(".csv", "csv"), (".json", "json"), (".xlsx", "excel"), (".xls", "excel"),
   (".parquet", "parquet"), (".tsv", "tsv"), (".txt", "tsv")]

/-- The formats with a pandas reader in `DataFrame.read_dataset`. -/
def reader_formats : List String :=
  ["csv", "json", "excel", "parquet", "tsv"]

/-- The branch of `read_dataset`/`read_csv` that locates the physical file:
when it is missing and fetching is enabled, delegate to
`DatasetsManager.fetch_from_url` (abstracted as `fetcher`) if the dataset
declares a source data URL, else fail with `FileNotFoundError`. -/
def locateFile (fs : FS) (st : ManagerState) (dataset : DatasetMetadata)
    (absolute_path : List String) (fetch_from_url : Bool)
    (fetcher : DatasetMetadata → Except Err (List String)) :
    Except Err (List String) :=
  if !(fs.existsAt absolute_path) && fetch_from_url then
    if (dataset.source.bind (fun s => s.location.data)).isSome then fetcher dataset
    else .error (.fileNotFoundError ("File not found: " ++ joinAbs absolute_path ++
      "\nDataset '" ++ dataset.slug ++ "' has no source URL to fetch from."))
  else .ok absolute_path

/-- `DataFrame.read_dataset`: look the slug up in the manifest (inputs
first), locate or fetch the file, detect the format from the file extension
unless overridden, read through the pandas reader (external), and return the
resolved entry together with a fresh lineage recording the entry as source
and a read operation. -/
def read_dataset (fs : FS) (st : ManagerState) (slug : String)
    (fetch_from_url : Bool) (fetcher : DatasetMetadata → Except Err (List String))
    (format : Option String) :
    Except Err (DatasetMetadata × LineageMetadata) :=
  match find_dataset_by_slug st slug none with
  | none => .error (.datasetNotFoundError ("Dataset with slug '" ++ slug ++
      "' not found in datasets.yaml. Check that the dataset is registered."))
  | some dataset =>
    match locateFile fs st dataset (get_absolute_path st.project dataset.location)
        fetch_from_url fetcher with
    | .error e => .error e
    | .ok absolute_path =>
      let formatRes : Except Err String :=
        match format with
        | some f => .ok f
        | none =>
          let extension := lowerStr (nameSuffix (absolute_path.getLast?.getD ""))
          match format_map.lookup extension with
          | some f => .ok f
          | none => .error (.valueError ("Cannot auto-detect format for file extension '"
              ++ extension ++ "'. Supported extensions: .csv, .json, .xlsx, .xls, "
              ++ ".parquet, .tsv, .txt. Please specify format explicitly using the "
              ++ "'format' parameter."))
      match formatRes with
      | .error e => .error e
      | .ok fmt =>
        if reader_formats.contains fmt then
          let lineage :=
            (({ project_path := some (joinAbs st.project) : LineageMetadata
              }).add_source dataset).add_operation
              ("read_dataset(" ++ dataset.slug ++ ", format=" ++ fmt ++ ")")
          .ok (dataset, lineage)
        else
          .error (.valueError ("Unsupported format '" ++ fmt ++
            "'. Supported formats: csv, json, excel, parquet, tsv"))

/-- The slug test of `DataFrame.read_csv`: no path separator and no file
extension on the final segment. -/
def is_slug_location (location : String) : Bool :=
  !location.toList.contains '/' && !location.toList.contains '\\'
    && pathSuffix location == ""

/-- `DataFrame.read_csv`: dispatch slugs to `read_dataset` with format
`csv`; resolve file locations through the location resolver, failing with
`DatasetNotFoundError` in both modes (the message differs) when nothing
matches, then read the CSV (external) and return the entry with a fresh
lineage.  `strict` is the explicit flag (`none` defers to the
environment-derived default `env_strict`). -/
def read_csv (fs : FS) (st : ManagerState) (location : String)
    (strict : Option Bool) (env_strict : Bool) (fetch_from_url : Bool)
    (fetcher : DatasetMetadata → Except Err (List String)) :
    Except Err (DatasetMetadata × LineageMetadata) :=
  if is_slug_location location then
    read_dataset fs st location fetch_from_url fetcher (some "csv")
  else
    match find_dataset_by_location fs st location none with
    | none =>
      if strict.getD env_strict then
        .error (.datasetNotFoundError ("Dataset at '" ++ location ++
          "' not found in datasets.yaml. In strict mode, all datasets must be registered."))
      else
        .error (.datasetNotFoundError ("Dataset at '" ++ location ++
          "' not found in datasets.yaml. Please add it to datasets.yaml first."))
    | some dataset =>
      match locateFile fs st dataset (get_absolute_path st.project location)
          fetch_from_url fetcher with
      | .error e => .error e
      | .ok _ =>
        let lineage :=
          (({ project_path := some (joinAbs st.project) : LineageMetadata
            }).add_source dataset).add_operation ("read_csv(" ++ dataset.slug ++ ")")
        .ok (dataset, lineage)

/-- `DataFrame.to_csv`: resolve the output location; when unregistered,
fail with `StrictModeError` in strict mode, require `slug` and `name` in
relaxed mode (else `ValueError`) and auto-register via
`DatasetsManager.add_output_dataset`; then write the CSV at the resolved
path (the byte write is external; the path is returned), record a
`to_csv` operation on the in-memory lineage, and persist the lineage block
via `update_output_lineage`. -/
def to_csv (fs : FS) (st : ManagerState) (lin : LineageMetadata)
    (strict_mode : Bool) (df : PandasDF) (path_or_buf : String)
    (slug name : Option String) (publish : Bool) (now : Nat) :
    Except Err (ManagerState × LineageMetadata × List String) :=
  let location := path_or_buf
  let step1 : Except Err (ManagerState × DatasetMetadata) :=
    match find_dataset_by_location fs st location (some "output") with
    | some dataset => .ok (st, dataset)
    | none =>
      if strict_mode then
        .error (.strictModeError ("Output dataset at '" ++ location ++
          "' not registered in datasets.yaml. In strict mode, outputs must be pre-registered."))
      else
        match slug, name with
        | some sl, some nm =>
          match add_output_dataset st nm sl location (infer_field_schema df) publish with
          | (st', .ok dataset) => .ok (st', dataset)
          | (_, .error e) => .error e
        | _, _ =>
          .error (.valueError ("In relaxed mode, 'slug' and 'name' are required " ++
            "when writing to an unregistered output location."))
  match step1 with
  | .error e => .error e
  | .ok (st1, dataset) =>
    let absolute_path := get_absolute_path st1.project dataset.location
    let lin1 := lin.add_operation ("to_csv(" ++ dataset.slug ++ ")")
    match update_output_lineage st1 dataset.slug lin1 df strict_mode now with
    | (st2, .ok _) => .ok (st2, lin1, absolute_path)
    | (_, .error e) => .error e

end DataFrame

/-! ## URL safety gate (`datasets.py`, `_is_public_url`) -/

/-- An IP address as classified by Python's `ipaddress` module: a dotted
quad, or an IPv6 address given by its eight 16-bit groups. -/
inductive IpAddr where
  | v4 (a b c d : Nat)
  | v6 (g : List Nat)
  deriving DecidableEq

/-- `ipaddress.*.is_loopback`: `127.0.0.0/8` and `::1`. -/
def IpAddr.loopback : IpAddr → Bool
  | .v4 a _ _ _ => a == 127
  | .v6 g => g == [0, 0, 0, 0, 0, 0, 0, 1]

/-- `ipaddress.*.is_link_local`: `169.254.0.0/16` and `fe80::/10`. -/
def IpAddr.linkLocal : IpAddr → Bool
  | .v4 a b _ _ => a == 169 && b == 254
  | .v6 g => (g.headD 0) / 64 == 0x3fa

/-- `ipaddress.*.is_private` for the ranges relevant here: for IPv4 the
RFC1918 ranges, `0.0.0.0/8`, loopback and link-local; for IPv6 the unique
local range `fc00::/7`, the unspecified address, loopback and link-local. -/
def IpAddr.privateRange : IpAddr → Bool
  | .v4 a b _ _ =>
    a == 10 || (a == 172 && 16 ≤ b && b ≤ 31) || (a == 192 && b == 168)
      || a == 127 || (a == 169 && b == 254) || a == 0
  | .v6 g =>
    (g.headD 0) / 512 == 0x7e || g == [0, 0, 0, 0, 0, 0, 0, 0]
      || IpAddr.loopback (.v6 g) || IpAddr.linkLocal (.v6 g)

/-- The blocking test applied to each resolved address by `_is_public_url`:
`ip_obj.is_private or ip_obj.is_loopback or ip_obj.is_link_local`. -/
def IpAddr.restricted (ip : IpAddr) : Bool :=
  ip.privateRange || ip.loopback || ip.linkLocal

/-- DNS resolution (`socket.getaddrinfo`): `.error ()` models `gaierror`
(unresolvable hostname); each resolved textual address either parses to an
address (`some`) or fails `ipaddress.ip_address` (`none`). -/
abbrev Dns := String → Except Unit (List (Option IpAddr))

/-- Take characters up to (excluding) the first character satisfying `p`. -/
def takeUntil (p : Char → Bool) : List Char → List Char
  | [] => []
  | c :: cs => if p c then [] else c :: takeUntil p cs

/-- Drop everything up to and including the last occurrence of `sep`
(`rsplit`-style userinfo stripping). -/
def dropThroughLast (sep : Char) (cs : List Char) : List Char :=
  if cs.contains sep then
    ((cs.reverse.takeWhile (fun c => c != sep))).reverse
  else cs

/-- Split a URL into scheme and remainder at the first `"://"`; `none` when
the separator is absent (such URLs fail the scheme or hostname check of
`_is_public_url` either way). -/
def splitScheme (s : String) : Option (String × List Char) :=
  let cs := s.toList
  let schemePart := takeUntil (fun c => c == ':') cs
  let rest := cs.drop schemePart.length
  match rest with
  | ':' :: '/' :: '/' :: tail => some (lowerStr (String.mk schemePart), tail)
  | _ => none

/-- `urlparse(url).scheme` (lower-cased), for URLs written with `"://"`. -/
def urlScheme (s : String) : String :=
  match splitScheme s with
  | some (sch, _) => sch
  | none => ""

/-- `urlparse(url).hostname`: the authority (up to the first `/`, `?` or
`#`) with userinfo and port stripped and brackets removed, lower-cased;
`none` when empty. -/
def urlHostname (s : String) : Option String :=
  match splitScheme s with
  | none => none
  | some (_, rest) =>
    let authority := takeUntil (fun c => c == '/' || c == '?' || c == '#') rest
    let hostPort := dropThroughLast '@' authority
    let host :=
      match hostPort with
      | '[' :: tail => takeUntil (fun c => c == ']') tail
      | _ => takeUntil (fun c => c == ':') hostPort
    if host.isEmpty then none else some (lowerStr (String.mk host))

/-- `datasets.py` (`_is_public_url`): true only for `http`/`https` URLs with
a hostname all of whose resolved addresses are parseable and neither
private-range, loopback nor link-local; false on unresolvable hostnames
(fails closed). -/
def is_public_url (dns : Dns) (url : String) : Bool :=
  if !(urlScheme url == "http" || urlScheme url == "https") then false
  else
    match urlHostname url with
    | none => false
    | some host =>
      match dns host with
      | .error _ => false
      | .ok addrs =>
        addrs.all (fun a =>
          match a with
          | none => false
          | some ip => !ip.restricted)

/-! ## Remote fetcher (`datasets.py`, `DatasetsManager.fetch_from_url`) -/

/-- An HTTP response as consumed by the fetch loop: the redirect flag
(`response.is_redirect`), the `Location` header, and the status code. -/
structure Response where
  redirect : Bool
  location : Option String
  status : Nat

/-- The network: a deterministic map from URL to response
(`requests.get(url, allow_redirects=False)`). -/
abbrev Net := String → Response

/-- `headers.get("Location")` followed by Python's truthiness test
(`if not redirect_url`): an absent or empty header counts as missing. -/
def locationOf (r : Response) : Option String :=
  match r.location with
  | none => none
  | some s => if s = "" then none else some s

/-- `response.raise_for_status()` followed by the body write: 4xx/5xx
raises, anything else succeeds. -/
def finalize (r : Response) : Except Err Unit :=
  if 400 ≤ r.status then .error (.httpStatusError r.status) else .ok ()

/-- The manual redirect loop of `fetch_from_url`, with
`fuel = max_redirects - redirect_count`.  Returns the list of URLs a
request was issued to from this point on, together with the outcome.  Each
redirect target is resolved against the current URL (`urljoin`, abstracted
as `join`) and validated by the safety gate before the next request is
issued; the loop errors with `TooManyRedirects` when the response still
redirects with no fuel left. -/
def fetchLoop (gate : String → Bool) (net : Net) (join : String → String → String)
    (max_redirects : Nat) :
    Nat → String → Response → List String × Except Err Unit
  | 0, _, response =>
    if response.redirect then
      ([], .error (.valueError ("Too many redirects (max: " ++
        toString max_redirects ++ ")")))
    else ([], finalize response)
  | fuel' + 1, current_url, response =>
    if response.redirect then
      match locationOf response with
      | none => ([], .error (.valueError "Redirect response without Location header"))
      | some loc =>
        let redirect_url := join current_url loc
        if !gate redirect_url then
          ([], .error (.valueError ("Redirect URL '" ++ redirect_url ++
            "' is not allowed. Only HTTP/HTTPS URLs pointing to public internet "
            ++ "addresses are permitted.")))
        else
          let (trace, res) := fetchLoop gate net join max_redirects fuel'
            redirect_url (net redirect_url)
          (redirect_url :: trace, res)
    else ([], finalize response)

/-- `DatasetsManager.fetch_from_url`, from the cache check on: `source` is
the dataset's declared data URL (`none` fails with `NoSourceUrl`), a
present local file short-circuits unless forced, the initial URL is
validated by the safety gate, and redirects are then chased manually by
`fetchLoop`.  The first component lists every URL a request was issued to,
in order. -/
def fetch_from_url (gate : String → Bool) (net : Net)
    (join : String → String → String) (slug : String) (source : Option String)
    (local_exists force : Bool) (max_redirects : Nat) :
    List String × Except Err Unit :=
  match source with
  | none => ([], .error (.valueError ("Dataset '" ++ slug ++ "' has no source URL")))
  | some url =>
    if local_exists && !force then ([], .ok ())
    else if !gate url then
      ([], .error (.valueError ("URL '" ++ url ++ "' is not allowed. Only HTTP/HTTPS "
        ++ "URLs pointing to public internet addresses are permitted.")))
    else
      let (trace, res) := fetchLoop gate net join max_redirects max_redirects url (net url)
      (url :: trace, res)

/-! ## Lineage object heap (`dataframe.py`, producing operations)

Python `LineageMetadata` instances are mutable heap objects; aliasing between
wrapped-table instances is observable.  A heap of lineage objects is
modelled as a list of values addressed by index; each wrapped table holds a
reference (`dataframe.py` stores it in `self.lineage`).  A producing
operation takes the heap and the operand references and returns the updated
heap together with the reference held by the resulting wrapped table. -/

abbrev LinHeap := List LineageMetadata

/-- Read the lineage object at a reference. -/
def heapGet (h : LinHeap) (r : Nat) : LineageMetadata :=
  h.getD r {}

/-- Allocate a fresh lineage object (`LineageMetadata(...)` constructor). -/
def heapAlloc (h : LinHeap) (v : LineageMetadata) : LinHeap × Nat :=
  (h ++ [v], h.length)

/-- The fresh lineage built by `apply_operation` and `_wrap_result`:
`LineageMetadata(sources=self.lineage.sources.copy(),
operations=self.lineage.operations.copy(), project_path=...)`. -/
def copiedLineage (cur : LineageMetadata) : LineageMetadata :=
  { sources := cur.sources, operations := cur.operations,
    created_at := none, content_hash := none, project_path := cur.project_path }

/-- `DataFrame.apply_operation`: copy the lineage collections, append the
description, and hand the result a freshly allocated lineage object. -/
def apply_operationH (h : LinHeap) (self : Nat) (description : String) :
    LinHeap × Nat :=
  heapAlloc h ((copiedLineage (heapGet h self)).add_operation description)

/-- `DataFrame._wrap_result`: copy the lineage collections, append the
operation when one is recorded, and allocate. -/
def wrap_resultH (h : LinHeap) (self : Nat) (operation : Option String) :
    LinHeap × Nat :=
  let v := copiedLineage (heapGet h self)
  heapAlloc h (match operation with
    | some op => v.add_operation op
    | none => v)

/-- The summary operation appended by `DataFrame.merge`. -/
def mergeSummary (h : LinHeap) (self right : Nat) : String :=
  "merge(left=" ++ toString (heapGet h self).sources.length ++
    " sources, right=" ++ toString (heapGet h right).sources.length ++ " sources)"

/-- `DataFrame.merge`: combine the two lineages through
`LineageMetadata.merge` (a fresh object), append the summary, allocate. -/
def mergeH (h : LinHeap) (self right : Nat) : LinHeap × Nat :=
  heapAlloc h (((heapGet h self).merge (heapGet h right)).add_operation
    (mergeSummary h self right))

/-- The summary operation appended by `DataFrame.join`. -/
def joinSummary (h : LinHeap) (self other : Nat) : String :=
  "join(left=" ++ toString (heapGet h self).sources.length ++
    " sources, right=" ++ toString (heapGet h other).sources.length ++ " sources)"

/-- `DataFrame.join`: same lineage combination as `merge`. -/
def joinH (h : LinHeap) (self other : Nat) : LinHeap × Nat :=
  heapAlloc h (((heapGet h self).merge (heapGet h other)).add_operation
    (joinSummary h self other))

/-- The summary operation appended by `DataFrame.concat`. -/
def concatSummary (h : LinHeap) (self : Nat) (others : List Nat) : String :=
  "concat(" ++ toString (others.length + 1) ++ " dataframes, " ++
    toString (((self :: others).map (fun r => (heapGet h r).sources.length)).sum) ++
    " total sources)"

/-- `DataFrame.concat`: fold `combined_lineage = combined_lineage.merge(...)`
starting from `self.lineage` itself, then `combined_lineage.add_operation`.
With a nonempty `others` the fold's first step already produced a fresh
object, which is mutated before the result is constructed and then
allocated; with an empty `others` the fold is vacuous, so `add_operation`
mutates `self`'s own lineage object in place and the result holds the very
same reference. -/
def concatH (h : LinHeap) (self : Nat) (others : List Nat) : LinHeap × Nat :=
  let summary := concatSummary h self others
  match others with
  | [] => (h.set self ((heapGet h self).add_operation summary), self)
  | o :: rest =>
    let combined := rest.foldl (fun acc r => acc.merge (heapGet h r))
      ((heapGet h self).merge (heapGet h o))
    heapAlloc h (combined.add_operation summary)

/-- `DataFrame.__setitem__`: in-place column assignment appends an operation
to the *same* table's lineage object, without allocating. -/
def setitemH (h : LinHeap) (self : Nat) (key : String) : LinHeap :=
  h.set self ((heapGet h self).add_operation ("__setitem__('" ++ key ++ "')"))

/-! ## Supporting lemmas -/

theorem updateFirst_eq_none (p : RawEntry → Bool) (f : RawEntry → RawEntry)
    (l : List RawEntry) (h : l.find? p = none) : updateFirst p f l = none := by
  induction l with
  | nil => rfl
  | cons a rest ih =>
    rw [List.find?_cons] at h
    match hp : p a with
    | true => rw [hp] at h; exact absurd h (by simp)
    | false =>
      rw [hp] at h
      simp only [updateFirst, hp, Bool.false_eq_true, if_false, ih h]

theorem updateFirst_eq_some (p : RawEntry → Bool) (f : RawEntry → RawEntry)
    (l : List RawEntry) (e : RawEntry) (h : l.find? p = some e) :
    ∃ l', updateFirst p f l = some (l', f e) ∧
      (p (f e) = true → l'.find? p = some (f e)) := by
  induction l with
  | nil => simp at h
  | cons a rest ih =>
    by_cases hp : p a = true
    · have he : a = e := by simpa [List.find?_cons, hp] using h
      subst he
      exact ⟨f a :: rest, by simp [updateFirst, hp],
        fun hfe => by simp [List.find?_cons, hfe]⟩
    · rw [List.find?_cons] at h
      rw [Bool.not_eq_true] at hp
      rw [hp] at h
      obtain ⟨l', hl', hfind⟩ := ih h
      refine ⟨a :: l', ?_, fun hfe => ?_⟩
      · simp only [updateFirst, hp, Bool.false_eq_true, if_false, hl']
      · simp [List.find?_cons, hp, hfind hfe]

theorem updateFirst_map {α : Type} (p : RawEntry → Bool) (f : RawEntry → RawEntry)
    (g : RawEntry → α) (hg : ∀ x, g (f x) = g x) (l : List RawEntry) :
    ∀ l' r, updateFirst p f l = some (l', r) → l'.map g = l.map g := by
  induction l with
  | nil => intro l' r h; simp [updateFirst] at h
  | cons a rest ih =>
    intro l' r h
    by_cases hp : p a = true
    · simp only [updateFirst, hp, if_true] at h
      obtain ⟨rfl, rfl⟩ : f a :: rest = l' ∧ f a = r := by
        constructor <;> [exact congrArg Prod.fst (Option.some.inj h);
          exact congrArg Prod.snd (Option.some.inj h)]
      simp [hg a]
    · simp only [updateFirst, hp, if_false] at h
      match hrec : updateFirst p f rest with
      | none => rw [hrec] at h; exact absurd h (by simp)
      | some (l'', r') =>
        rw [hrec] at h
        obtain ⟨rfl, rfl⟩ : a :: l'' = l' ∧ r' = r := by
          constructor <;> [exact congrArg Prod.fst (Option.some.inj h);
            exact congrArg Prod.snd (Option.some.inj h)]
        simp [ih l'' r' hrec]

/-- `matchesLocation` reads only the `location` component of the entry's
parsed core. -/
theorem matchesLocation_congr (fs : FS) (project : List String) (location : String)
    (location_abs : List String) (locName : String) (e1 e2 : RawEntry)
    (h : e1.core = e2.core) :
    matchesLocation fs project location location_abs locName e1 =
      matchesLocation fs project location location_abs locName e2 := by
  have hl : e1.location = e2.location := by
    have := congrArg (fun c => c.2.2.1) h
    simpa [RawEntry.core] using this
  simp [matchesLocation, hl]

theorem parseDataset_congr (e1 e2 : RawEntry) (t : String) (h : e1.core = e2.core) :
    parseDataset e1 t = parseDataset e2 t := by
  obtain ⟨h1, h2, h3, h4, h5, h6⟩ : e1.name = e2.name ∧ e1.slug = e2.slug ∧
      e1.location = e2.location ∧ e1.fields = e2.fields ∧ e1.source = e2.source ∧
      e1.publish = e2.publish := by
    refine ⟨congrArg (fun c => c.1) h, congrArg (fun c => c.2.1) h,
      congrArg (fun c => c.2.2.1) h, congrArg (fun c => c.2.2.2.1) h,
      congrArg (fun c => c.2.2.2.2.1) h, congrArg (fun c => c.2.2.2.2.2) h⟩
  simp [parseDataset, h1, h2, h3, h4, h5, h6]

theorem find_parse_congr (q : RawEntry → Bool) (t : String)
    (hq : ∀ x y : RawEntry, x.core = y.core → q x = q y) :
    ∀ l1 l2 : List RawEntry, l1.map RawEntry.core = l2.map RawEntry.core →
      (l1.find? q).map (fun e => parseDataset e t) =
        (l2.find? q).map (fun e => parseDataset e t) := by
  intro l1
  induction l1 with
  | nil => intro l2 h; cases l2 with
    | nil => rfl
    | cons b t2 => simp at h
  | cons a t1 ih =>
    intro l2 h
    cases l2 with
    | nil => simp at h
    | cons b t2 =>
      simp only [List.map_cons, List.cons.injEq] at h
      obtain ⟨hab, ht⟩ := h
      rw [List.find?_cons, List.find?_cons, hq a b hab]
      match hs : q b with
      | true => simp [parseDataset_congr a b t hab]
      | false => exact ih t2 ht

/-- Location resolution reads only the project root and the parsed cores of
the stored entries. -/
theorem find_by_location_congr (fs : FS) (st1 st2 : ManagerState)
    (hp : st1.project = st2.project)
    (hi : st1.inputs.map RawEntry.core = st2.inputs.map RawEntry.core)
    (ho : st1.outputs.map RawEntry.core = st2.outputs.map RawEntry.core)
    (loc : String) (t : Option String) :
    find_dataset_by_location fs st1 loc t = find_dataset_by_location fs st2 loc t := by
  simp only [find_dataset_by_location]
  rw [hp]
  congr 1
  funext dtype
  by_cases hd : dtype = "input"
  · subst hd
    simp only [ManagerState.entriesOf, if_true]
    exact find_parse_congr _ "input"
      (fun x y hxy => matchesLocation_congr fs st2.project _ _ _ x y hxy)
      st1.inputs st2.inputs hi
  · simp only [ManagerState.entriesOf, hd, if_false]
    exact find_parse_congr _ dtype
      (fun x y hxy => matchesLocation_congr fs st2.project _ _ _ x y hxy)
      st1.outputs st2.outputs ho

/-- `update_output_lineage` alters neither the project root, the inputs,
nor any output entry's parsed core; location resolution is therefore
unaffected by it. -/
theorem find_by_location_update_output_lineage (fs : FS) (st : ManagerState)
    (sl : String) (lin : LineageMetadata) (df : PandasDF) (b : Bool) (now : Nat)
    (loc : String) (t : Option String) :
    find_dataset_by_location fs (update_output_lineage st sl lin df b now).1 loc t =
      find_dataset_by_location fs st loc t := by
  unfold update_output_lineage
  cases hu : updateFirst (fun e => e.slug == sl)
      (fun e => { e with lineage := some (lineageBlockFor e.lineage
        (compute_dataframe_hash df) now lin) }) st.outputs with
  | none => simp [hu]
  | some pr =>
    obtain ⟨outputs', r⟩ := pr
    have hcore : outputs'.map RawEntry.core = st.outputs.map RawEntry.core :=
      updateFirst_map (fun e => e.slug == sl)
        (fun e => { e with lineage := some (lineageBlockFor e.lineage
          (compute_dataframe_hash df) now lin) })
        RawEntry.core (fun x => rfl) st.outputs outputs' r hu
    simp only [hu]
    exact find_by_location_congr fs
      (ManagerState.save { st with outputs := outputs' }) st rfl rfl hcore loc t

/-! ## Claim C7 -/

/-- C7: `LineageMetadata.merge(other)` returns a new lineage whose sources
are self's sources followed by those of other not already present (self's
first, each side's internal order preserved), whose project_path is self's
value falling back to other's, and which has no operation appended by merge
itself; the resulting source set is commutative ignoring order, merging a
lineage with itself yields a source set no larger than the original, and
merging A with B then with B again does not duplicate B's sources. -/
theorem claim_C7_merge_algebra (A B : LineageMetadata) :
    (∃ t, (A.merge B).sources = A.sources ++ t ∧ t.Sublist B.sources ∧
        ∀ x ∈ t, x ∉ A.sources) ∧
      (∀ x, x ∈ (A.merge B).sources ↔ x ∈ A.sources ∨ x ∈ B.sources) ∧
      (A.merge B).project_path = pyOrStr A.project_path B.project_path ∧
      (A.project_path = none → (A.merge B).project_path = B.project_path) ∧
      (A.merge B).operations = [] ∧
      (∀ x, x ∈ (A.merge B).sources ↔ x ∈ (B.merge A).sources) ∧
      (A.merge A).sources = A.sources ∧
      ((A.merge B).merge B).sources = (A.merge B).sources := by
  have hmem : ∀ (X Y : LineageMetadata) (x : DatasetMetadata),
      x ∈ (X.merge Y).sources ↔ x ∈ X.sources ∨ x ∈ Y.sources := by
    intro X Y x
    simp only [LineageMetadata.merge]
    exact mem_foldl_addIfAbsent Y.sources X.sources x
  refine ⟨?_, fun x => hmem A B x, rfl, ?_, rfl, ?_, ?_, ?_⟩
  · simpa only [LineageMetadata.merge] using
      foldl_addIfAbsent_structure B.sources A.sources
  · intro h
    simp [LineageMetadata.merge, pyOrStr, h]
  · intro x
    rw [hmem A B x, hmem B A x]
    exact or_comm
  · simp only [LineageMetadata.merge]
    exact foldl_addIfAbsent_of_subset A.sources A.sources (fun x hx => hx)
  · simp only [LineageMetadata.merge]
    exact foldl_addIfAbsent_of_subset B.sources (A.merge B).sources
      (fun x hx => (hmem A B x).mpr (Or.inr hx))

/-- Witness for C7 at concrete lineages, with the fallback hypothesis
discharged. -/
theorem claim_C7_merge_algebra_witness :
    (LineageMetadata.merge { sources := [] }
        { sources := [], project_path := some "/p" }).project_path = some "/p" ∧
      (LineageMetadata.merge { sources := [] } { sources := [] }).sources = [] :=
  ⟨(claim_C7_merge_algebra { sources := [] }
      { sources := [], project_path := some "/p" }).2.2.2.1 rfl,
    (claim_C7_merge_algebra { sources := [] } { sources := [] }).2.2.2.2.2.2.1⟩

/-! ## Claim C8 -/

/-- An input entry used in concrete scenarios. -/
def memberEntry : DatasetMetadata :=
  { name := "UN Members", slug := "official-un-member-states",
    location := "inputs/members.csv", fields := [] }

/-- The same slug and location as `memberEntry` but a different name. -/
def memberEntryRenamed : DatasetMetadata :=
  { name := "UN Members (renamed)", slug := "official-un-member-states",
    location := "inputs/members.csv", fields := [] }

/-- C8 counterexample: `add_source` judges presence by structural equality
of the whole dataclass, not by slug+location.  Two entries with equal slug
and equal location but different names are both kept: adding the second
after the first does not leave the sources list unchanged. -/
theorem claim_C8_counterexample :
    memberEntry.slug = memberEntryRenamed.slug ∧
      memberEntry.location = memberEntryRenamed.location ∧
      (({ sources := [memberEntry] } : LineageMetadata).add_source
          memberEntryRenamed).sources = [memberEntry, memberEntryRenamed] ∧
      (({ sources := [memberEntry] } : LineageMetadata).add_source
          memberEntryRenamed).sources ≠ [memberEntry] := by
  refine ⟨rfl, rfl, ?_, ?_⟩ <;> decide

/-- C8 (amended): `add_source(entry)` appends the entry to `sources` only if
it is not already present, where presence is judged by structural equality
of the whole entry (all dataclass fields), not by slug+location and not by
object identity: adding an entry equal (in all fields) to one already
present leaves the sources list unchanged. -/
theorem claim_C8_add_source_dedup (l : LineageMetadata) (d : DatasetMetadata)
    (h : d ∈ l.sources) : (l.add_source d).sources = l.sources := by
  simp [LineageMetadata.add_source, h]

/-- Witness for C8 at a concrete lineage. -/
theorem claim_C8_add_source_dedup_witness :
    memberEntry ∈ ({ sources := [memberEntry] } : LineageMetadata).sources ∧
      (({ sources := [memberEntry] } : LineageMetadata).add_source
          memberEntry).sources = [memberEntry] :=
  ⟨by decide, claim_C8_add_source_dedup { sources := [memberEntry] } memberEntry
    (by decide)⟩

/-! ## Claim C1 -/

/-- C1: for every manifest containing an input entry with slug `s`, a
successful `DataFrame.read_dataset(s, project_path)` returns a wrapped
table whose lineage's sources contain exactly the one resolved manifest
entry and whose lineage's operations contain a read-record mentioning `s`;
`operations` is an append-only ordered sequence of strings on the lineage
object.  The hypotheses carve out the success path: the slug resolves to an
input entry, the format is supported, and the file is present on disk. -/
theorem claim_C1_read_dataset_lineage (fs : FS) (st : ManagerState)
    (s fmt : String) (ff : Bool)
    (fetcher : DatasetMetadata → Except Err (List String)) (e : RawEntry)
    (hin : st.inputs.find? (fun x => x.slug == s) = some e)
    (hfmt : DataFrame.reader_formats.contains fmt = true)
    (hfile : fs.existsAt (get_absolute_path st.project e.location) = true) :
    ∃ lin, DataFrame.read_dataset fs st s ff fetcher (some fmt) =
        .ok (parseDataset e "input", lin) ∧
      lin.sources = [parseDataset e "input"] ∧
      lin.operations = ["read_dataset(" ++ s ++ ", format=" ++ fmt ++ ")"] ∧
      (∃ pre post, "read_dataset(" ++ s ++ ", format=" ++ fmt ++ ")" = pre ++ s ++ post) ∧
      (∀ (l : LineageMetadata) (dsc : String),
        (l.add_operation dsc).operations = l.operations ++ [dsc]) := by
  have hslug : e.slug = s := by
    have h := List.find?_some hin
    simpa using h
  have hfd : find_dataset_by_slug st s none = some (parseDataset e "input") := by
    simp [find_dataset_by_slug, searchTypes, ManagerState.entriesOf,
      List.findSome?_cons, hin]
  refine ⟨{ sources := [parseDataset e "input"]
            operations := ["read_dataset(" ++ s ++ ", format=" ++ fmt ++ ")"]
            created_at := none, content_hash := none
            project_path := some (joinAbs st.project) }, ?_, rfl, rfl, ?_, ?_⟩
  · have hmem : fmt ∈ DataFrame.reader_formats := by simpa using hfmt
    simp [DataFrame.read_dataset, hfd, DataFrame.locateFile, parseDataset, hfile,
      hfmt, hmem, LineageMetadata.add_source, LineageMetadata.add_operation, hslug]
  · exact ⟨"read_dataset(", ", format=" ++ fmt ++ ")", by
      simp [String.append_assoc]⟩
  · intro l dsc
    rfl

/-- A concrete project root. -/
def demoProject : List String := ["home", "proj"]

/-- A concrete input raw entry registering the members dataset. -/
def memberRaw : RawEntry :=
  { name := "UN Members", slug := "official-un-member-states",
    location := "inputs/members.csv", fields := [] }

/-- A concrete manager state with one input and no outputs. -/
def demoStateC1 : ManagerState := DatasetsManager.load demoProject [memberRaw] []

/-- A filesystem on which the registered input file exists. -/
def demoFsC1 : FS :=
  ⟨fun p => if p = ["home", "proj", "inputs", "members.csv"] then some 1 else none⟩

/-- A fetcher that is never consulted in the concrete scenarios. -/
def noFetch : DatasetMetadata → Except Err (List String) :=
  fun _ => .error (.valueError "fetch not exercised")

/-- Witness for C1 with the resolution, format and file hypotheses
discharged at a concrete manifest. -/
theorem claim_C1_read_dataset_lineage_witness :
    ∃ lin, DataFrame.read_dataset demoFsC1 demoStateC1 "official-un-member-states"
        true noFetch (some "csv") = .ok (parseDataset memberRaw "input", lin) ∧
      lin.sources = [parseDataset memberRaw "input"] ∧
      lin.operations = ["read_dataset(" ++ "official-un-member-states" ++
        ", format=" ++ "csv" ++ ")"] ∧
      (∃ pre post, "read_dataset(" ++ "official-un-member-states" ++ ", format=" ++
        "csv" ++ ")" = pre ++ "official-un-member-states" ++ post) ∧
      (∀ (l : LineageMetadata) (dsc : String),
        (l.add_operation dsc).operations = l.operations ++ [dsc]) :=
  claim_C1_read_dataset_lineage demoFsC1 demoStateC1 "official-un-member-states"
    "csv" true noFetch memberRaw (by decide) (by decide) (by decide)

/-! ## Claim C10 -/

/-- C10: `DataFrame.read_csv(location, ...)` interprets the location as a
dataset slug exactly when it contains no path separator and its final
segment has no file extension, delegating to `read_dataset` with format
`csv` (and raising `DatasetNotFound` when the slug is unregistered);
otherwise it resolves the location through the location resolver and, in
both strict and relaxed mode, raises `DatasetNotFound` when no manifest
entry matches. -/
theorem claim_C10_read_csv_dispatch (fs : FS) (st : ManagerState)
    (location : String) (strict : Option Bool) (env ff : Bool)
    (fetcher : DatasetMetadata → Except Err (List String)) :
    (DataFrame.is_slug_location location = true →
        DataFrame.read_csv fs st location strict env ff fetcher =
          DataFrame.read_dataset fs st location ff fetcher (some "csv")) ∧
      (DataFrame.is_slug_location location = true →
        find_dataset_by_slug st location none = none →
        DataFrame.read_csv fs st location strict env ff fetcher =
          .error (.datasetNotFoundError ("Dataset with slug '" ++ location ++
            "' not found in datasets.yaml. Check that the dataset is registered."))) ∧
      (DataFrame.is_slug_location location = false →
        find_dataset_by_location fs st location none = none →
        ∃ msg, DataFrame.read_csv fs st location strict env ff fetcher =
          .error (.datasetNotFoundError msg)) := by
  refine ⟨fun h => ?_, fun h hnone => ?_, fun h hnone => ?_⟩
  · simp [DataFrame.read_csv, h]
  · simp [DataFrame.read_csv, h, DataFrame.read_dataset, hnone]
  · simp only [DataFrame.read_csv, h, Bool.false_eq_true, if_false, hnone]
    cases hb : strict.getD env
    · exact ⟨"Dataset at '" ++ location ++
        "' not found in datasets.yaml. Please add it to datasets.yaml first.",
        by simp [hb]⟩
    · exact ⟨"Dataset at '" ++ location ++
        "' not found in datasets.yaml. In strict mode, all datasets must be registered.",
        by simp [hb]⟩

/-- Witness for C10: slug dispatch, unregistered slug, and unregistered
file location at a concrete manifest, in both modes for the file case. -/
theorem claim_C10_read_csv_dispatch_witness :
    (DataFrame.read_csv demoFsC1 demoStateC1 "official-un-member-states" none false
        true noFetch =
      DataFrame.read_dataset demoFsC1 demoStateC1 "official-un-member-states" true
        noFetch (some "csv")) ∧
      DataFrame.read_csv demoFsC1 demoStateC1 "nonexistent-slug" none false true
          noFetch =
        .error (.datasetNotFoundError ("Dataset with slug '" ++ "nonexistent-slug" ++
          "' not found in datasets.yaml. Check that the dataset is registered.")) ∧
      (∃ msg, DataFrame.read_csv demoFsC1 demoStateC1 "inputs/none.csv" (some true)
          false true noFetch = .error (.datasetNotFoundError msg)) ∧
      (∃ msg, DataFrame.read_csv demoFsC1 demoStateC1 "inputs/none.csv" (some false)
          false true noFetch = .error (.datasetNotFoundError msg)) :=
  ⟨(claim_C10_read_csv_dispatch demoFsC1 demoStateC1 "official-un-member-states"
      none false true noFetch).1 (by decide),
    (claim_C10_read_csv_dispatch demoFsC1 demoStateC1 "nonexistent-slug"
      none false true noFetch).2.1 (by decide) (by decide),
    (claim_C10_read_csv_dispatch demoFsC1 demoStateC1 "inputs/none.csv"
      (some true) false true noFetch).2.2 (by decide) (by decide),
    (claim_C10_read_csv_dispatch demoFsC1 demoStateC1 "inputs/none.csv"
      (some false) false true noFetch).2.2 (by decide) (by decide)⟩

/-! ## Claim C3 -/

theorem find_by_slug_output (st : ManagerState) (sl : String) :
    find_dataset_by_slug st sl (some "output") =
      (st.outputs.find? (fun e => e.slug == sl)).map
        (fun e => parseDataset e "output") := by
  cases h : st.outputs.find? (fun e => e.slug == sl) with
  | none => simp [find_dataset_by_slug, searchTypes, ManagerState.entriesOf,
      List.findSome?, h]
  | some e => simp [find_dataset_by_slug, searchTypes, ManagerState.entriesOf,
      List.findSome?, h]

theorem updateFirst_append_last (p : RawEntry → Bool) (f : RawEntry → RawEntry)
    (l : List RawEntry) (e : RawEntry) (hl : l.find? p = none) (he : p e = true) :
    updateFirst p f (l ++ [e]) = some (l ++ [f e], f e) := by
  induction l with
  | nil => simp [updateFirst, he]
  | cons a rest ih =>
    have hp : p a = false := by
      rw [List.find?_cons] at hl
      cases hpa : p a
      · rfl
      · rw [hpa] at hl; exact absurd hl (by simp)
    have hrest : rest.find? p = none := by
      rw [List.find?_cons, hp] at hl
      exact hl
    simp [updateFirst, hp, ih hrest]

/-- An output entry already occupying a slug. -/
def dupOutputRaw : RawEntry :=
  { name := "Existing", slug := "dup", location := "outputs/x.csv", fields := [] }

/-- A manifest with one registered output of slug `dup` and no inputs. -/
def dupState : ManagerState := DatasetsManager.load demoProject [] [dupOutputRaw]

/-- A filesystem on which no file exists. -/
def emptyFs : FS := ⟨fun _ => none⟩

/-- A one-column integer table. -/
def intDf : PandasDF := { cols := [("a", Dtype.integer)], rows := [["1"]] }

/-- C3 counterexample: a relaxed-mode `to_csv` to an unregistered location
with both `slug` and `name` supplied does not always succeed: when the
supplied slug already names a registered output (at a different location),
auto-registration fails with `DuplicateSlug` (`DatasetValidationError`). -/
theorem claim_C3_counterexample :
    find_dataset_by_location emptyFs dupState "outputs/y.csv" (some "output") = none ∧
      DataFrame.to_csv emptyFs dupState {} false intDf "outputs/y.csv" (some "dup")
          (some "Y") false 0 =
        .error (.datasetValidationError ("Output dataset with slug '" ++ "dup" ++
          "' already exists")) := by
  constructor
  · decide
  · rfl

/-- C3 (amended): for every `to_csv` write to a location not registered as
an output: in strict mode it fails with `UnregisteredOutput`
(`StrictModeError`); in relaxed mode it fails with
`MissingRegistrationFields` (`ValueError`) when `slug` or `name` is absent;
and with both supplied *and the supplied slug not already registered as an
output*, it succeeds, leaving a new output entry in the manifest whose
field types are inferred from the table's column dtypes (integer dtype to
`integer`, float to `number`, boolean to `boolean`, datetime to `datetime`,
anything else to `string`). -/
theorem claim_C3_to_csv_unregistered (fs : FS) (st : ManagerState)
    (lin : LineageMetadata) (df : PandasDF) (strict_mode : Bool)
    (location : String) (slug name : Option String) (publish : Bool) (now : Nat)
    (hnone : find_dataset_by_location fs st location (some "output") = none) :
    (strict_mode = true →
        DataFrame.to_csv fs st lin strict_mode df location slug name publish now =
          .error (.strictModeError ("Output dataset at '" ++ location ++
            "' not registered in datasets.yaml. In strict mode, outputs must be pre-registered."))) ∧
      (strict_mode = false → (slug = none ∨ name = none) →
        DataFrame.to_csv fs st lin strict_mode df location slug name publish now =
          .error (.valueError ("In relaxed mode, 'slug' and 'name' are required " ++
            "when writing to an unregistered output location."))) ∧
      (∀ sl nm, strict_mode = false → slug = some sl → name = some nm →
        find_dataset_by_slug st sl (some "output") = none →
        ∃ st2,
          DataFrame.to_csv fs st lin strict_mode df location slug name publish now =
              .ok (st2, lin.add_operation ("to_csv(" ++ sl ++ ")"),
                get_absolute_path st.project location) ∧
            st2.inputs = st.inputs ∧
            st2.outputs = st.outputs ++
              [{ name := nm, slug := sl, location := location,
                 fields := DataFrame.infer_field_schema df, source := none,
                 publish := publish,
                 lineage := some (lineageBlockFor none (compute_dataframe_hash df) now
                   (lin.add_operation ("to_csv(" ++ sl ++ ")"))) }] ∧
            st2.persistedOutputs = st2.outputs) ∧
      (DataFrame.dtypeFieldType .integer = "integer" ∧
        DataFrame.dtypeFieldType .floating = "number" ∧
        DataFrame.dtypeFieldType .boolean = "boolean" ∧
        DataFrame.dtypeFieldType .datetime = "datetime" ∧
        DataFrame.dtypeFieldType .object = "string" ∧
        ∀ d : PandasDF, DataFrame.infer_field_schema d = d.cols.map (fun c =>
          { name := c.1, type := DataFrame.dtypeFieldType c.2, constraints := none })) := by
  refine ⟨fun hsm => ?_, fun hsm hmiss => ?_, fun sl nm hsm hsl hnm hslugnone => ?_,
    rfl, rfl, rfl, rfl, rfl, fun d => rfl⟩
  · subst hsm
    simp [DataFrame.to_csv, hnone]
  · subst hsm
    cases slug with
    | none => cases name <;> simp [DataFrame.to_csv, hnone]
    | some sl =>
      cases name with
      | none => simp [DataFrame.to_csv, hnone]
      | some nm => rcases hmiss with h | h <;> simp at h
  · subst hsm hsl hnm
    have hfound : st.outputs.find? (fun e => e.slug == sl) = none := by
      rw [find_by_slug_output] at hslugnone
      exact Option.map_eq_none.mp hslugnone
    have hup := updateFirst_append_last (fun e => e.slug == sl)
      (fun e => { e with lineage := some (lineageBlockFor e.lineage
        (compute_dataframe_hash df) now
        (lin.add_operation ("to_csv(" ++ sl ++ ")"))) })
      st.outputs
      { name := nm, slug := sl, location := location,
        fields := DataFrame.infer_field_schema df, source := none,
        publish := publish, lineage := none }
      hfound (by simp)
    refine ⟨ManagerState.save { (ManagerState.save { st with outputs := st.outputs ++ [({ name := nm, slug := sl, location := location, fields := DataFrame.infer_field_schema df, source := none, publish := publish, lineage := none } : RawEntry)] }) with outputs := st.outputs ++ [({ name := nm, slug := sl, location := location, fields := DataFrame.infer_field_schema df, source := none, publish := publish, lineage := some (lineageBlockFor none (compute_dataframe_hash df) now (lin.add_operation ("to_csv(" ++ sl ++ ")"))) } : RawEntry)] }, ?_, rfl, rfl, rfl⟩
    simp only [DataFrame.to_csv, hnone, add_output_dataset, hslugnone,
      Option.isSome_none, Bool.false_eq_true, if_false, parseDataset,
      update_output_lineage, ManagerState.save]
    rw [hup]

/-- Witness for C3 exercising all three branches at concrete inputs. -/
theorem claim_C3_to_csv_unregistered_witness :
    (DataFrame.to_csv emptyFs dupState {} true intDf "outputs/y.csv" (some "fresh")
        (some "Y") false 5 =
      .error (.strictModeError ("Output dataset at '" ++ "outputs/y.csv" ++
        "' not registered in datasets.yaml. In strict mode, outputs must be pre-registered."))) ∧
      (DataFrame.to_csv emptyFs dupState {} false intDf "outputs/y.csv" none
          (some "Y") false 5 =
        .error (.valueError ("In relaxed mode, 'slug' and 'name' are required " ++
          "when writing to an unregistered output location."))) ∧
      (∃ st2,
        DataFrame.to_csv emptyFs dupState {} false intDf "outputs/y.csv"
            (some "fresh") (some "Y") false 5 =
            .ok (st2, LineageMetadata.add_operation {} ("to_csv(" ++ "fresh" ++ ")"),
              get_absolute_path dupState.project "outputs/y.csv") ∧
          st2.inputs = dupState.inputs ∧
          st2.outputs = dupState.outputs ++
            [{ name := "Y", slug := "fresh", location := "outputs/y.csv",
               fields := DataFrame.infer_field_schema intDf, source := none,
               publish := false,
               lineage := some (lineageBlockFor none (compute_dataframe_hash intDf) 5
                 (LineageMetadata.add_operation {} ("to_csv(" ++ "fresh" ++ ")"))) }] ∧
          st2.persistedOutputs = st2.outputs) :=
  ⟨(claim_C3_to_csv_unregistered emptyFs dupState {} intDf true "outputs/y.csv"
      (some "fresh") (some "Y") false 5 (by decide)).1 rfl,
    (claim_C3_to_csv_unregistered emptyFs dupState {} intDf false "outputs/y.csv"
      none (some "Y") false 5 (by decide)).2.1 rfl (Or.inl rfl),
    (claim_C3_to_csv_unregistered emptyFs dupState {} intDf false "outputs/y.csv"
      (some "fresh") (some "Y") false 5 (by decide)).2.2.1 "fresh" "Y" rfl rfl rfl
      (by decide)⟩

/-! ## Claim C2 -/

/-- C2: for every pair of successive `to_csv` writes of a table to the same
registered output slug: after the physical write the manifest entry's
lineage block is updated and persisted; if the table content is unchanged
the persisted `content_hash` is identical and `created_at` is not bumped
(whatever the second write's wall-clock time), and if the content changed
the fingerprint differs and `created_at` is updated to the current time of
the second write.  (`e0` is the registered output entry carrying the slug;
the fingerprint is the idealised SHA-256 of `compute_dataframe_hash`.) -/
theorem claim_C2_content_hash_stability (fs : FS) (st : ManagerState)
    (lin lin2 : LineageMetadata) (sm sm2 : Bool) (df1 df2 : PandasDF)
    (location : String) (slug2 name2 : Option String) (pub pub2 : Bool)
    (t1 t2 : Nat) (d : DatasetMetadata) (e0 : RawEntry)
    (hfind : find_dataset_by_location fs st location (some "output") = some d)
    (hslug0 : st.outputs.find? (fun x => x.slug == d.slug) = some e0) :
    ∃ st1 p1 st2 p2 b1 b2,
      DataFrame.to_csv fs st lin sm df1 location none none pub t1 =
          .ok (st1, lin.add_operation ("to_csv(" ++ d.slug ++ ")"), p1) ∧
        DataFrame.to_csv fs st1 lin2 sm2 df2 location slug2 name2 pub2 t2 =
          .ok (st2, lin2.add_operation ("to_csv(" ++ d.slug ++ ")"), p2) ∧
        st1.outputLineage d.slug = some b1 ∧
        st2.outputLineage d.slug = some b2 ∧
        b1.content_hash = compute_dataframe_hash df1 ∧
        b2.content_hash = compute_dataframe_hash df2 ∧
        (df2 = df1 → b2.content_hash = b1.content_hash ∧ b2.created_at = b1.created_at) ∧
        (df2 ≠ df1 → b2.content_hash ≠ b1.content_hash ∧ b2.created_at = t2) ∧
        st1.persistedOutputs = st1.outputs ∧
        st2.persistedOutputs = st2.outputs := by
  have pe0 := List.find?_some hslug0
  obtain ⟨l1, hup1, hfind1'⟩ := updateFirst_eq_some (fun e => e.slug == d.slug)
    (fun e => { e with lineage := some (lineageBlockFor e.lineage
      (compute_dataframe_hash df1) t1
      (lin.add_operation ("to_csv(" ++ d.slug ++ ")"))) }) st.outputs e0 hslug0
  have hfind1 := hfind1' pe0
  obtain ⟨l2, hup2, hfind2'⟩ := updateFirst_eq_some (fun e => e.slug == d.slug)
    (fun e => { e with lineage := some (lineageBlockFor e.lineage
      (compute_dataframe_hash df2) t2
      (lin2.add_operation ("to_csv(" ++ d.slug ++ ")"))) }) l1
    ({ e0 with lineage := some (lineageBlockFor e0.lineage
      (compute_dataframe_hash df1) t1
      (lin.add_operation ("to_csv(" ++ d.slug ++ ")"))) }) hfind1
  have hfind2 := hfind2' pe0
  have hupdate_st1 : (update_output_lineage st d.slug
      (lin.add_operation ("to_csv(" ++ d.slug ++ ")")) df1 sm t1).1 =
      ManagerState.save { st with outputs := l1 } := by
    simp only [update_output_lineage]
    rw [hup1]
  have hfindloc2 : find_dataset_by_location fs
      (ManagerState.save { st with outputs := l1 }) location (some "output") =
      some d := by
    rw [← hupdate_st1, find_by_location_update_output_lineage, hfind]
  refine ⟨ManagerState.save { st with outputs := l1 },
    get_absolute_path st.project d.location,
    ManagerState.save { (ManagerState.save { st with outputs := l1 }) with outputs := l2 },
    get_absolute_path st.project d.location,
    lineageBlockFor e0.lineage (compute_dataframe_hash df1) t1
      (lin.add_operation ("to_csv(" ++ d.slug ++ ")")),
    lineageBlockFor (some (lineageBlockFor e0.lineage (compute_dataframe_hash df1) t1
      (lin.add_operation ("to_csv(" ++ d.slug ++ ")"))))
      (compute_dataframe_hash df2) t2
      (lin2.add_operation ("to_csv(" ++ d.slug ++ ")")),
    ?_, ?_, ?_, ?_, rfl, rfl, ?_, ?_, rfl, rfl⟩
  · simp only [DataFrame.to_csv, hfind, update_output_lineage]
    rw [hup1]
  · simp only [DataFrame.to_csv, hfindloc2, update_output_lineage]
    rw [show (ManagerState.save { st with outputs := l1 }).outputs = l1 from rfl,
      hup2]
    rfl
  · show (l1.find? (fun e => e.slug == d.slug)).bind (fun e => e.lineage) = some _
    rw [hfind1]
    rfl
  · show (l2.find? (fun e => e.slug == d.slug)).bind (fun e => e.lineage) = some _
    rw [hfind2]
    rfl
  · rintro rfl
    exact ⟨rfl, by simp [lineageBlockFor]⟩
  · intro hne
    constructor
    · intro h
      exact hne (congrArg Digest.content h)
    · simp only [lineageBlockFor]
      rw [if_neg]
      intro h
      exact hne (congrArg Digest.content h.symm)

/-- A registered output raw entry with no lineage block yet. -/
def stableOutputRaw : RawEntry :=
  { name := "Stable Output", slug := "stable-output",
    location := "outputs/stable.csv", fields := [] }

/-- A manifest with that single registered output. -/
def stableState : ManagerState := DatasetsManager.load demoProject [] [stableOutputRaw]

/-- A two-row table and a truncated variant of it. -/
def stableDf : PandasDF := { cols := [("a", Dtype.integer)], rows := [["1"], ["2"]] }

/-- The truncated table (first row only). -/
def truncatedDf : PandasDF := { cols := [("a", Dtype.integer)], rows := [["1"]] }

/-- Witness for C2 at a concrete registered output, covering both the
unchanged-content rewrite and a changed-content rewrite. -/
theorem claim_C2_content_hash_stability_witness :
    (∃ st1 p1 st2 p2 b1 b2,
      DataFrame.to_csv emptyFs stableState {} false stableDf "outputs/stable.csv"
          none none false 10 =
          .ok (st1, LineageMetadata.add_operation {}
            ("to_csv(" ++ (parseDataset stableOutputRaw "output").slug ++ ")"), p1) ∧
        DataFrame.to_csv emptyFs st1 {} false stableDf "outputs/stable.csv"
            none none false 20 =
          .ok (st2, LineageMetadata.add_operation {}
            ("to_csv(" ++ (parseDataset stableOutputRaw "output").slug ++ ")"), p2) ∧
        st1.outputLineage (parseDataset stableOutputRaw "output").slug = some b1 ∧
        st2.outputLineage (parseDataset stableOutputRaw "output").slug = some b2 ∧
        b1.content_hash = compute_dataframe_hash stableDf ∧
        b2.content_hash = compute_dataframe_hash stableDf ∧
        (stableDf = stableDf → b2.content_hash = b1.content_hash ∧
          b2.created_at = b1.created_at) ∧
        (stableDf ≠ stableDf → b2.content_hash ≠ b1.content_hash ∧
          b2.created_at = 20) ∧
        st1.persistedOutputs = st1.outputs ∧
        st2.persistedOutputs = st2.outputs) ∧
    (∃ st1 p1 st2 p2 b1 b2,
      DataFrame.to_csv emptyFs stableState {} false stableDf "outputs/stable.csv"
          none none false 10 =
          .ok (st1, LineageMetadata.add_operation {}
            ("to_csv(" ++ (parseDataset stableOutputRaw "output").slug ++ ")"), p1) ∧
        DataFrame.to_csv emptyFs st1 {} false truncatedDf "outputs/stable.csv"
            none none false 20 =
          .ok (st2, LineageMetadata.add_operation {}
            ("to_csv(" ++ (parseDataset stableOutputRaw "output").slug ++ ")"), p2) ∧
        st1.outputLineage (parseDataset stableOutputRaw "output").slug = some b1 ∧
        st2.outputLineage (parseDataset stableOutputRaw "output").slug = some b2 ∧
        b1.content_hash = compute_dataframe_hash stableDf ∧
        b2.content_hash = compute_dataframe_hash truncatedDf ∧
        (truncatedDf = stableDf → b2.content_hash = b1.content_hash ∧
          b2.created_at = b1.created_at) ∧
        (truncatedDf ≠ stableDf → b2.content_hash ≠ b1.content_hash ∧
          b2.created_at = 20) ∧
        st1.persistedOutputs = st1.outputs ∧
        st2.persistedOutputs = st2.outputs) :=
  ⟨claim_C2_content_hash_stability emptyFs stableState {} {} false false
      stableDf stableDf "outputs/stable.csv" none none false false 10 20
      (parseDataset stableOutputRaw "output") stableOutputRaw (by decide) (by decide),
    claim_C2_content_hash_stability emptyFs stableState {} {} false false
      stableDf truncatedDf "outputs/stable.csv" none none false false 10 20
      (parseDataset stableOutputRaw "output") stableOutputRaw (by decide) (by decide)⟩

/-! ## Claim C9 -/

/-- One mutating operation of the manifest store (`DatasetsManager`):
auto-registration of an output, an explicit output update, or a lineage
block update.  Failed operations leave the state unchanged, so they are
steps too. -/
inductive StoreStep : ManagerState → ManagerState → Prop where
  | addOutput (st : ManagerState) (n sl loc : String) (flds : List FieldSchema)
      (pub : Bool) : StoreStep st (add_output_dataset st n sl loc flds pub).1
  | updateOutput (st : ManagerState) (sl : String)
      (flds : Option (List FieldSchema)) (loc : Option String) :
      StoreStep st (update_output_dataset st sl flds loc).1
  | updateLineage (st : ManagerState) (sl : String) (lin : LineageMetadata)
      (df : PandasDF) (b : Bool) (now : Nat) :
      StoreStep st (update_output_lineage st sl lin df b now).1

/-- Reachability by a sequence of store operations. -/
abbrev StoreReach : ManagerState → ManagerState → Prop :=
  Relation.ReflTransGen StoreStep

/-- Every manifest state producible through the store's operations: loading
any manifest file, then mutating. -/
inductive ManifestReachable : ManagerState → Prop where
  | loaded (project : List String) (inputs outputs : List RawEntry) :
      ManifestReachable (DatasetsManager.load project inputs outputs)
  | step {s s' : ManagerState} : ManifestReachable s → StoreStep s s' →
      ManifestReachable s'

/-- Any two distinct entries in the same type namespace have distinct slugs
(stated as nodup of the slug projections, which also rules out equal
duplicate entries). -/
def slugsDistinct (st : ManagerState) : Prop :=
  (st.inputs.map RawEntry.slug).Nodup ∧ (st.outputs.map RawEntry.slug).Nodup

theorem storeStep_preserves_slugsDistinct {s s' : ManagerState}
    (h : StoreStep s s') (hs : slugsDistinct s) : slugsDistinct s' := by
  cases h with
  | addOutput n sl loc flds pub =>
    by_cases hdup : (find_dataset_by_slug s sl (some "output")).isSome = true
    · simpa [add_output_dataset, hdup] using hs
    · have hnone : s.outputs.find? (fun e => e.slug == sl) = none := by
        cases hf : s.outputs.find? (fun e => e.slug == sl) with
        | none => rfl
        | some e =>
          exfalso
          apply hdup
          rw [find_by_slug_output, hf]
          rfl
      have hnotin : sl ∉ s.outputs.map RawEntry.slug := by
        intro hmem
        obtain ⟨x, hx, hxs⟩ := List.mem_map.mp hmem
        have := List.find?_eq_none.mp hnone x hx
        exact this (by simp [hxs])
      have hgoal : (add_output_dataset s n sl loc flds pub).1 =
          ManagerState.save { s with outputs := s.outputs ++
            [{ name := n, slug := sl, location := loc, fields := flds,
               source := none, publish := pub, lineage := none }] } := by
        simp [add_output_dataset, hdup]
      rw [hgoal]
      refine ⟨hs.1, ?_⟩
      show ((s.outputs ++ [({ name := n, slug := sl, location := loc, fields := flds, source := none, publish := pub, lineage := none } : RawEntry)]).map RawEntry.slug).Nodup
      rw [List.map_append, List.nodup_append]
      exact ⟨hs.2, List.nodup_singleton sl, by
        intro a ha hb
        have : a = sl := by simpa [RawEntry.slug] using hb
        subst this
        exact hnotin ha⟩
  | updateOutput sl flds loc =>
    cases hu : updateFirst (fun e => e.slug == sl) (fun e => { e with fields := flds.getD e.fields, location := loc.getD e.location }) s.outputs with
    | none => simpa [update_output_dataset, hu] using hs
    | some pr =>
      obtain ⟨outputs', r⟩ := pr
      have hmap := updateFirst_map (fun e => e.slug == sl) (fun e => { e with fields := flds.getD e.fields, location := loc.getD e.location }) RawEntry.slug (fun x => rfl) s.outputs outputs' r hu
      have hgoal : (update_output_dataset s sl flds loc).1 =
          ManagerState.save { s with outputs := outputs' } := by
        simp [update_output_dataset, hu]
      rw [hgoal]
      refine ⟨hs.1, ?_⟩
      show (outputs'.map RawEntry.slug).Nodup
      rw [hmap]
      exact hs.2
  | updateLineage sl lin df b now =>
    cases hu : updateFirst (fun e => e.slug == sl) (fun e => { e with lineage := some (lineageBlockFor e.lineage (compute_dataframe_hash df) now lin) }) s.outputs with
    | none => simpa [update_output_lineage, hu] using hs
    | some pr =>
      obtain ⟨outputs', r⟩ := pr
      have hmap := updateFirst_map (fun e => e.slug == sl) (fun e => { e with lineage := some (lineageBlockFor e.lineage (compute_dataframe_hash df) now lin) }) RawEntry.slug (fun x => rfl) s.outputs outputs' r hu
      have hgoal : (update_output_lineage s sl lin df b now).1 =
          ManagerState.save { s with outputs := outputs' } := by
        simp [update_output_lineage, hu]
      rw [hgoal]
      refine ⟨hs.1, ?_⟩
      show (outputs'.map RawEntry.slug).Nodup
      rw [hmap]
      exact hs.2

/-- A second output entry sharing the slug of `dupOutputRaw` but otherwise
different. -/
def dupOutputRaw2 : RawEntry :=
  { name := "Existing (copy)", slug := "dup", location := "outputs/b.csv",
    fields := [] }

/-- C9 counterexample: loading is one of the store's operations and
performs no slug validation, so a manifest file whose outputs already carry
a duplicated slug yields a reachable state with two distinct entries of the
same type namespace sharing a slug. -/
theorem claim_C9_counterexample :
    ManifestReachable (DatasetsManager.load ["p"] [] [dupOutputRaw, dupOutputRaw2]) ∧
      dupOutputRaw ≠ dupOutputRaw2 ∧
      dupOutputRaw.slug = dupOutputRaw2.slug ∧
      ¬ slugsDistinct (DatasetsManager.load ["p"] [] [dupOutputRaw, dupOutputRaw2]) :=
  ⟨.loaded ["p"] [] [dupOutputRaw, dupOutputRaw2], by decide, rfl, by
    intro h
    exact absurd h.2 (by decide)⟩

/-- C9 (amended): in every manifest state reached by the store's mutating
operations from the load of a manifest whose input and output namespaces
already have pairwise distinct slugs, the namespaces keep distinct slugs
(load itself performs no validation); and `add_output_dataset` raises
`DuplicateSlug` (`DatasetValidationError`) exactly when an output with that
slug already exists, leaving the in-memory manifest and the persisted file
unchanged in the error case, and otherwise appends the entry and
immediately persists. -/
theorem claim_C9_slug_uniqueness :
    (∀ (project : List String) (inputs outputs : List RawEntry) (s : ManagerState),
      (inputs.map RawEntry.slug).Nodup → (outputs.map RawEntry.slug).Nodup →
      StoreReach (DatasetsManager.load project inputs outputs) s →
      slugsDistinct s) ∧
    (∀ (st : ManagerState) (n sl loc : String) (flds : List FieldSchema) (pub : Bool),
      ((find_dataset_by_slug st sl (some "output")).isSome = true →
        add_output_dataset st n sl loc flds pub =
          (st, .error (.datasetValidationError ("Output dataset with slug '" ++ sl ++
            "' already exists")))) ∧
      (find_dataset_by_slug st sl (some "output") = none →
        add_output_dataset st n sl loc flds pub =
          (ManagerState.save { st with outputs := st.outputs ++ [({ name := n, slug := sl, location := loc, fields := flds, source := none, publish := pub, lineage := none } : RawEntry)] },
           .ok (parseDataset { name := n, slug := sl, location := loc, fields := flds, source := none, publish := pub, lineage := none } "output")))) := by
  constructor
  · intro project inputs outputs s hi ho hreach
    induction hreach with
    | refl => exact ⟨hi, ho⟩
    | tail hab hbc ih => exact storeStep_preserves_slugsDistinct hbc ih
  · intro st n sl loc flds pub
    constructor
    · intro h
      simp [add_output_dataset, h]
    · intro h
      simp [add_output_dataset, h]

/-- Witness for C9: the invariant at a loaded duplicate-free manifest, the
duplicate-slug error leaving the state unchanged, and a successful append
that persists, all at concrete states. -/
theorem claim_C9_slug_uniqueness_witness :
    slugsDistinct (DatasetsManager.load ["p"] [] [dupOutputRaw]) ∧
      add_output_dataset dupState "N" "dup" "outputs/z.csv" [] false =
        (dupState, .error (.datasetValidationError ("Output dataset with slug '" ++
          "dup" ++ "' already exists"))) ∧
      add_output_dataset dupState "N" "fresh" "outputs/z.csv" [] false =
        (ManagerState.save { dupState with outputs := dupState.outputs ++ [({ name := "N", slug := "fresh", location := "outputs/z.csv", fields := [], source := none, publish := false, lineage := none } : RawEntry)] },
         .ok (parseDataset { name := "N", slug := "fresh", location := "outputs/z.csv", fields := [], source := none, publish := false, lineage := none } "output")) :=
  ⟨(claim_C9_slug_uniqueness).1 ["p"] [] [dupOutputRaw]
      (DatasetsManager.load ["p"] [] [dupOutputRaw]) (by decide) (by decide)
      Relation.ReflTransGen.refl,
    (claim_C9_slug_uniqueness).2 dupState "N" "dup" "outputs/z.csv" [] false |>.1
      (by decide),
    (claim_C9_slug_uniqueness).2 dupState "N" "fresh" "outputs/z.csv" [] false |>.2
      (by decide)⟩

/-! ## Claim C6 -/

theorem heapGet_append_lt (h : LinHeap) (v : LineageMetadata) (i : Nat)
    (hi : i < h.length) : heapGet (h ++ [v]) i = heapGet h i := by
  induction h generalizing i with
  | nil => exact absurd hi (by simp)
  | cons a t ih =>
    cases i with
    | zero => rfl
    | succ j =>
      have hj : j < t.length := by simpa using hi
      simpa [heapGet] using ih j hj

theorem heapGet_append_len (h : LinHeap) (v : LineageMetadata) :
    heapGet (h ++ [v]) h.length = v := by
  induction h with
  | nil => rfl
  | cons a t ih => simp [heapGet]

theorem heapGet_set_ne (h : LinHeap) (r : Nat) (v : LineageMetadata) (i : Nat)
    (hne : i ≠ r) : heapGet (h.set r v) i = heapGet h i := by
  induction h generalizing i r with
  | nil => rfl
  | cons a t ih =>
    cases r with
    | zero =>
      cases i with
      | zero => exact absurd rfl hne
      | succ j => rfl
    | succ rr =>
      cases i with
      | zero => rfl
      | succ j => simpa [heapGet] using ih rr j (fun hc => hne (by rw [hc]))

theorem heapGet_set_self (h : LinHeap) (r : Nat) (v : LineageMetadata)
    (hr : r < h.length) : heapGet (h.set r v) r = v := by
  induction h generalizing r with
  | nil => exact absurd hr (by simp)
  | cons a t ih =>
    cases r with
    | zero => rfl
    | succ rr =>
      have : rr < t.length := by simpa using hr
      simpa [heapGet] using ih rr this

/-- A lineage object as left by a read (one source, one operation). -/
def readLin : LineageMetadata :=
  { sources := [memberEntry], operations := ["read_csv(official-un-member-states)"] }

/-- A second lineage object with its own operation history. -/
def otherLin : LineageMetadata := { sources := [], operations := ["head"] }

/-- C6 counterexample: two producing operations violate the claim.
`concat` with an empty list returns the very same lineage object as the
caller (same heap reference) and mutates it in place, so the result's
lineage *is* another instance's lineage; and `merge` does not copy the
parent's operations before appending the summary (the merged lineage's
operations are the summary alone). -/
theorem claim_C6_counterexample :
    (concatH [readLin] 0 []).2 = 0 ∧
      heapGet (concatH [readLin] 0 []).1 0 ≠ readLin ∧
      (heapGet (mergeH [readLin, otherLin] 0 1).1
          (mergeH [readLin, otherLin] 0 1).2).operations ≠
        readLin.operations ++ [mergeSummary [readLin, otherLin] 0 1] := by
  refine ⟨rfl, ?_, ?_⟩
  · decide
  · decide

/-- C6 (amended): element-wise producing operations (`apply_operation` and
`_wrap_result`) allocate a fresh `LineageMetadata` whose sources and
operations are copied from the parent's before any new operation is
appended, leaving every existing lineage object untouched; the combining
operations (`merge`, `join`, and `concat` with a nonempty argument list)
also allocate a fresh object and leave existing objects untouched, but
their result's operations consist of the single summary operation (the
parents' operation histories are not copied, only their sources are
merged); `concat` with an empty argument list is the exception to
independence: it returns the caller's own lineage object, appending the
summary to it in place, touching no other object; and in-place column
assignment mutates only the assigned table's own lineage object. -/
theorem claim_C6_lineage_independence (h : LinHeap) (r r2 : Nat)
    (desc op : String) (o : Nat) (rest : List Nat) (i : Nat) :
    ((apply_operationH h r desc).2 = h.length ∧
      (i < h.length → heapGet (apply_operationH h r desc).1 i = heapGet h i) ∧
      heapGet (apply_operationH h r desc).1 (apply_operationH h r desc).2 =
        { sources := (heapGet h r).sources
          operations := (heapGet h r).operations ++ [desc]
          created_at := none, content_hash := none
          project_path := (heapGet h r).project_path }) ∧
    ((wrap_resultH h r (some op)).2 = h.length ∧
      (i < h.length → heapGet (wrap_resultH h r (some op)).1 i = heapGet h i) ∧
      heapGet (wrap_resultH h r (some op)).1 (wrap_resultH h r (some op)).2 =
        { sources := (heapGet h r).sources
          operations := (heapGet h r).operations ++ [op]
          created_at := none, content_hash := none
          project_path := (heapGet h r).project_path }) ∧
    ((wrap_resultH h r none).2 = h.length ∧
      heapGet (wrap_resultH h r none).1 (wrap_resultH h r none).2 =
        { sources := (heapGet h r).sources
          operations := (heapGet h r).operations
          created_at := none, content_hash := none
          project_path := (heapGet h r).project_path }) ∧
    ((mergeH h r r2).2 = h.length ∧
      (i < h.length → heapGet (mergeH h r r2).1 i = heapGet h i) ∧
      (heapGet (mergeH h r r2).1 (mergeH h r r2).2).operations =
        [mergeSummary h r r2] ∧
      (∀ x, x ∈ (heapGet (mergeH h r r2).1 (mergeH h r r2).2).sources ↔
        x ∈ (heapGet h r).sources ∨ x ∈ (heapGet h r2).sources)) ∧
    ((joinH h r r2).2 = h.length ∧
      (i < h.length → heapGet (joinH h r r2).1 i = heapGet h i) ∧
      (heapGet (joinH h r r2).1 (joinH h r r2).2).operations =
        [joinSummary h r r2]) ∧
    ((concatH h r (o :: rest)).2 = h.length ∧
      (i < h.length → heapGet (concatH h r (o :: rest)).1 i = heapGet h i)) ∧
    ((concatH h r []).2 = r ∧
      (r < h.length → heapGet (concatH h r []).1 r =
        (heapGet h r).add_operation (concatSummary h r [])) ∧
      (i ≠ r → heapGet (concatH h r []).1 i = heapGet h i)) ∧
    (i ≠ r → heapGet (setitemH h r desc) i = heapGet h i) := by
  refine ⟨⟨rfl, fun hi => heapGet_append_lt h _ i hi, ?_⟩,
    ⟨rfl, fun hi => heapGet_append_lt h _ i hi, ?_⟩,
    ⟨rfl, ?_⟩,
    ⟨rfl, fun hi => heapGet_append_lt h _ i hi, ?_, ?_⟩,
    ⟨rfl, fun hi => heapGet_append_lt h _ i hi, ?_⟩,
    ⟨rfl, fun hi => heapGet_append_lt h _ i hi⟩,
    ⟨rfl, fun hr => heapGet_set_self h r _ hr, fun hne => heapGet_set_ne h r _ i hne⟩,
    fun hne => heapGet_set_ne h r _ i hne⟩
  · rw [show (apply_operationH h r desc).1 = h ++
      [(copiedLineage (heapGet h r)).add_operation desc] from rfl,
      show (apply_operationH h r desc).2 = h.length from rfl, heapGet_append_len]
    rfl
  · rw [show (wrap_resultH h r (some op)).1 = h ++
      [(copiedLineage (heapGet h r)).add_operation op] from rfl,
      show (wrap_resultH h r (some op)).2 = h.length from rfl, heapGet_append_len]
    rfl
  · rw [show (wrap_resultH h r none).1 = h ++
      [copiedLineage (heapGet h r)] from rfl,
      show (wrap_resultH h r none).2 = h.length from rfl, heapGet_append_len]
    rfl
  · rw [show (mergeH h r r2).1 = h ++
      [((heapGet h r).merge (heapGet h r2)).add_operation (mergeSummary h r r2)]
      from rfl, show (mergeH h r r2).2 = h.length from rfl, heapGet_append_len]
    rfl
  · intro x
    rw [show (mergeH h r r2).1 = h ++
      [((heapGet h r).merge (heapGet h r2)).add_operation (mergeSummary h r r2)]
      from rfl, show (mergeH h r r2).2 = h.length from rfl, heapGet_append_len]
    show x ∈ ((heapGet h r).merge (heapGet h r2)).sources ↔ _
    simp only [LineageMetadata.merge]
    exact mem_foldl_addIfAbsent (heapGet h r2).sources (heapGet h r).sources x
  · rw [show (joinH h r r2).1 = h ++
      [((heapGet h r).merge (heapGet h r2)).add_operation (joinSummary h r r2)]
      from rfl, show (joinH h r r2).2 = h.length from rfl, heapGet_append_len]
    rfl

/-- Witness for C6 at a concrete two-object heap, discharging the
index-bound and distinctness hypotheses. -/
theorem claim_C6_lineage_independence_witness :
    heapGet (apply_operationH [readLin, otherLin] 0 "filter").1 1 =
        heapGet [readLin, otherLin] 1 ∧
      heapGet (mergeH [readLin, otherLin] 0 1).1 1 = heapGet [readLin, otherLin] 1 ∧
      heapGet (concatH [readLin, otherLin] 0 []).1 0 =
        (heapGet [readLin, otherLin] 0).add_operation
          (concatSummary [readLin, otherLin] 0 []) ∧
      heapGet (concatH [readLin, otherLin] 0 []).1 1 = heapGet [readLin, otherLin] 1 ∧
      heapGet (setitemH [readLin, otherLin] 0 "NewCol") 1 =
        heapGet [readLin, otherLin] 1 :=
  ⟨((claim_C6_lineage_independence [readLin, otherLin] 0 1 "filter" "head" 1 [] 1).1).2.1
      (by decide),
    ((claim_C6_lineage_independence [readLin, otherLin] 0 1 "filter" "head" 1 [] 1).2.2.2.1).2.1
      (by decide),
    ((claim_C6_lineage_independence [readLin, otherLin] 0 1 "filter" "head" 1 [] 1).2.2.2.2.2.2.1).2.1
      (by decide),
    ((claim_C6_lineage_independence [readLin, otherLin] 0 1 "filter" "head" 1 [] 1).2.2.2.2.2.2.1).2.2
      (by decide),
    ((claim_C6_lineage_independence [readLin, otherLin] 0 1 "NewCol" "head" 1 [] 1).2.2.2.2.2.2.2)
      (by decide)⟩

/-! ## Claim C4 -/

theorem fetchLoop_trace_gated (gate : String → Bool) (net : Net)
    (join : String → String → String) (maxR : Nat) :
    ∀ (fuel : Nat) (cur : String) (resp : Response),
      ∀ u ∈ (fetchLoop gate net join maxR fuel cur resp).1, gate u = true := by
  intro fuel
  induction fuel with
  | zero =>
    intro cur resp u hu
    by_cases hr : resp.redirect = true <;> simp [fetchLoop, hr] at hu
  | succ f ih =>
    intro cur resp u hu
    by_cases hr : resp.redirect = true
    · cases hloc : locationOf resp with
      | none =>
        simp only [fetchLoop, if_pos hr, hloc] at hu
        simp at hu
      | some loc =>
        simp only [fetchLoop, if_pos hr, hloc] at hu
        by_cases hg : gate (join cur loc) = true
        · rw [if_neg (by simp [hg])] at hu
          rcases hfl : fetchLoop gate net join maxR f (join cur loc)
            (net (join cur loc)) with ⟨tr, res⟩
          rw [hfl] at hu
          simp only [List.mem_cons] at hu
          rcases hu with rfl | hu
          · exact hg
          · exact ih (join cur loc) (net (join cur loc)) u (by rw [hfl]; exact hu)
        · rw [if_pos (by simp [hg])] at hu
          simp at hu
    · simp only [fetchLoop, if_neg hr] at hu
      simp at hu

theorem fetchLoop_trace_len (gate : String → Bool) (net : Net)
    (join : String → String → String) (maxR : Nat) :
    ∀ (fuel : Nat) (cur : String) (resp : Response),
      (fetchLoop gate net join maxR fuel cur resp).1.length ≤ fuel := by
  intro fuel
  induction fuel with
  | zero =>
    intro cur resp
    by_cases hr : resp.redirect = true <;> simp [fetchLoop, hr]
  | succ f ih =>
    intro cur resp
    by_cases hr : resp.redirect = true
    · cases hloc : locationOf resp with
      | none => simp [fetchLoop, if_pos hr, hloc]
      | some loc =>
        simp only [fetchLoop, if_pos hr, hloc]
        by_cases hg : gate (join cur loc) = true
        · rw [if_neg (by simp [hg])]
          rcases hfl : fetchLoop gate net join maxR f (join cur loc)
            (net (join cur loc)) with ⟨tr, res⟩
          have := ih (join cur loc) (net (join cur loc))
          rw [hfl] at this
          simpa using Nat.succ_le_succ this
        · rw [if_pos (by simp [hg])]
          simp
    · simp [fetchLoop, if_neg hr]

theorem fetchLoop_all_redirect (gate : String → Bool) (net : Net)
    (join : String → String → String) (maxR : Nat)
    (hnet : ∀ u, (net u).redirect = true)
    (hloc : ∀ u, ∃ l, locationOf (net u) = some l)
    (hgate : ∀ u, gate u = true) :
    ∀ (fuel : Nat) (cur : String) (resp : Response), resp.redirect = true →
      (∃ l, locationOf resp = some l) →
      (fetchLoop gate net join maxR fuel cur resp).2 =
        .error (.valueError ("Too many redirects (max: " ++ toString maxR ++ ")")) ∧
      (fetchLoop gate net join maxR fuel cur resp).1.length = fuel := by
  intro fuel
  induction fuel with
  | zero =>
    intro cur resp hr _
    simp [fetchLoop, hr]
  | succ f ih =>
    intro cur resp hr hl
    obtain ⟨l, hl⟩ := hl
    rcases hfl : fetchLoop gate net join maxR f (join cur l) (net (join cur l))
      with ⟨tr, res⟩
    have hrec := ih (join cur l) (net (join cur l)) (hnet _) (hloc _)
    rw [hfl] at hrec
    constructor
    · show (fetchLoop gate net join maxR (f + 1) cur resp).2 = _
      simp only [fetchLoop, if_pos hr, hl, if_neg (by simp [hgate (join cur l)] :
        ¬((!gate (join cur l)) = true)), hfl]
      exact hrec.1
    · show (fetchLoop gate net join maxR (f + 1) cur resp).1.length = f + 1
      simp only [fetchLoop, if_pos hr, hl, if_neg (by simp [hgate (join cur l)] :
        ¬((!gate (join cur l)) = true)), hfl]
      simp [hrec.2]

/-- C4: in `fetch_from_url`, every redirect target is resolved against the
current URL and validated by the safety gate before any request is issued
to it — every URL the fetcher ever requests passed the gate; a blocked
redirect target fails with `UrlNotAllowed` issuing no further request; a
redirect response with a missing (or empty) `Location` header fails with
`MissingLocationHeader`; a chain still redirecting after `max_redirects`
redirect-following requests fails with `TooManyRedirects`; and the loop
always terminates, issuing at most `max_redirects + 1` requests. -/
theorem claim_C4_redirect_safety (gate : String → Bool) (net : Net)
    (join : String → String → String) (slug : String) (src : Option String)
    (local_exists force : Bool) (maxR : Nat) :
    (∀ u ∈ (fetch_from_url gate net join slug src local_exists force maxR).1,
      gate u = true) ∧
    (fetch_from_url gate net join slug src local_exists force maxR).1.length ≤
      maxR + 1 ∧
    (∀ (fuel : Nat) (cur : String) (resp : Response) (loc : String),
      resp.redirect = true → locationOf resp = some loc →
      gate (join cur loc) = false →
      fetchLoop gate net join maxR (fuel + 1) cur resp =
        ([], .error (.valueError ("Redirect URL '" ++ join cur loc ++
          "' is not allowed. Only HTTP/HTTPS URLs pointing to public internet "
          ++ "addresses are permitted.")))) ∧
    (∀ (fuel : Nat) (cur : String) (resp : Response),
      resp.redirect = true → locationOf resp = none →
      fetchLoop gate net join maxR (fuel + 1) cur resp =
        ([], .error (.valueError "Redirect response without Location header"))) ∧
    (∀ (cur : String) (resp : Response), resp.redirect = true →
      fetchLoop gate net join maxR 0 cur resp =
        ([], .error (.valueError ("Too many redirects (max: " ++
          toString maxR ++ ")")))) ∧
    (∀ url, src = some url → local_exists = false →
      (∀ u, (net u).redirect = true) → (∀ u, ∃ l, locationOf (net u) = some l) →
      (∀ u, gate u = true) →
      (fetch_from_url gate net join slug src local_exists force maxR).2 =
        .error (.valueError ("Too many redirects (max: " ++ toString maxR ++ ")")) ∧
      (fetch_from_url gate net join slug src local_exists force maxR).1.length =
        maxR + 1) := by
  refine ⟨?_, ?_, ?_, ?_, ?_, ?_⟩
  · intro u hu
    cases src with
    | none => simp [fetch_from_url] at hu
    | some url =>
      simp only [fetch_from_url] at hu
      by_cases hcache : (local_exists && !force) = true
      · rw [if_pos hcache] at hu; simp at hu
      · rw [if_neg hcache] at hu
        by_cases hg : gate url = true
        · rw [if_neg (by simp [hg])] at hu
          rcases hfl : fetchLoop gate net join maxR maxR url (net url) with ⟨tr, res⟩
          rw [hfl] at hu
          simp only [List.mem_cons] at hu
          rcases hu with rfl | hu
          · exact hg
          · exact fetchLoop_trace_gated gate net join maxR maxR url (net url) u
              (by rw [hfl]; exact hu)
        · rw [if_pos (by simp [hg])] at hu
          simp at hu
  · cases src with
    | none => simp [fetch_from_url]
    | some url =>
      simp only [fetch_from_url]
      by_cases hcache : (local_exists && !force) = true
      · rw [if_pos hcache]; simp
      · rw [if_neg hcache]
        by_cases hg : gate url = true
        · rw [if_neg (by simp [hg])]
          rcases hfl : fetchLoop gate net join maxR maxR url (net url) with ⟨tr, res⟩
          have := fetchLoop_trace_len gate net join maxR maxR url (net url)
          rw [hfl] at this
          simpa using Nat.succ_le_succ this
        · rw [if_pos (by simp [hg])]
          simp
  · intro fuel cur resp loc hr hl hg
    simp only [fetchLoop, if_pos hr, hl]
    rw [if_pos (by simp [hg])]
  · intro fuel cur resp hr hl
    simp only [fetchLoop, if_pos hr, hl]
  · intro cur resp hr
    simp [fetchLoop, hr]
  · intro url hsrc hle hnet hloc hgate
    subst hsrc hle
    have hmain := fetchLoop_all_redirect gate net join maxR hnet hloc hgate maxR
      url (net url) (hnet url) (hloc url)
    rcases hfl : fetchLoop gate net join maxR maxR url (net url) with ⟨tr, res⟩
    rw [hfl] at hmain
    constructor
    · show (fetch_from_url gate net join slug (some url) false force maxR).2 = _
      simp only [fetch_from_url, Bool.false_and, Bool.false_eq_true, if_false,
        if_neg (by simp [hgate url] : ¬((!gate url) = true)), hfl]
      exact hmain.1
    · show (fetch_from_url gate net join slug (some url) false force maxR).1.length = _
      simp only [fetch_from_url, Bool.false_and, Bool.false_eq_true, if_false,
        if_neg (by simp [hgate url] : ¬((!gate url) = true)), hfl]
      simp [hmain.2]

/-- A network on which every URL answers with a redirect to a fixed public
location. -/
def loopNet : Net :=
  fun _ => { redirect := true, location := some "http://example.org/next", status := 302 }

/-- A gate admitting everything (all targets public). -/
def openGate : String → Bool := fun _ => true

/-- `urljoin` instantiated as plain replacement (absolute redirect targets). -/
def takeTarget : String → String → String := fun _ l => l

/-- Witness for C4: an endless public redirect chain at `max_redirects = 2`
fails with `TooManyRedirects` after three requests, every requested URL
passed the gate, a blocked redirect target stops the loop with
`UrlNotAllowed` issuing no request, and a redirect without Location fails
with `MissingLocationHeader`. -/
theorem claim_C4_redirect_safety_witness :
    (∀ u ∈ (fetch_from_url openGate loopNet takeTarget "ds"
        (some "http://example.org/start") false false 2).1, openGate u = true) ∧
      (fetch_from_url openGate loopNet takeTarget "ds"
        (some "http://example.org/start") false false 2).1.length ≤ 2 + 1 ∧
      fetchLoop (fun u => u == "http://ok/") loopNet takeTarget 2 1 "http://ok/"
          { redirect := true, location := some "http://evil/", status := 302 } =
        ([], .error (.valueError ("Redirect URL '" ++
          takeTarget "http://ok/" "http://evil/" ++
          "' is not allowed. Only HTTP/HTTPS URLs pointing to public internet "
          ++ "addresses are permitted."))) ∧
      fetchLoop openGate loopNet takeTarget 2 1 "http://ok/"
          { redirect := true, location := none, status := 302 } =
        ([], .error (.valueError "Redirect response without Location header")) ∧
      (fetch_from_url openGate loopNet takeTarget "ds"
          (some "http://example.org/start") false false 2).2 =
        .error (.valueError ("Too many redirects (max: " ++ toString 2 ++ ")")) ∧
      (fetch_from_url openGate loopNet takeTarget "ds"
        (some "http://example.org/start") false false 2).1.length = 2 + 1 :=
  ⟨(claim_C4_redirect_safety openGate loopNet takeTarget "ds"
      (some "http://example.org/start") false false 2).1,
    (claim_C4_redirect_safety openGate loopNet takeTarget "ds"
      (some "http://example.org/start") false false 2).2.1,
    (claim_C4_redirect_safety (fun u => u == "http://ok/") loopNet takeTarget "ds"
      (some "http://example.org/start") false false 2).2.2.1 0 "http://ok/"
      { redirect := true, location := some "http://evil/", status := 302 }
      "http://evil/" rfl rfl (by decide),
    (claim_C4_redirect_safety openGate loopNet takeTarget "ds"
      (some "http://example.org/start") false false 2).2.2.2.1 0 "http://ok/"
      { redirect := true, location := none, status := 302 } rfl rfl,
    ((claim_C4_redirect_safety openGate loopNet takeTarget "ds"
      (some "http://example.org/start") false false 2).2.2.2.2.2
      "http://example.org/start" rfl rfl (fun _ => rfl)
      (fun _ => ⟨"http://example.org/next", rfl⟩) (fun _ => rfl)).1,
    ((claim_C4_redirect_safety openGate loopNet takeTarget "ds"
      (some "http://example.org/start") false false 2).2.2.2.2.2
      "http://example.org/start" rfl rfl (fun _ => rfl)
      (fun _ => ⟨"http://example.org/next", rfl⟩) (fun _ => rfl)).2⟩

/-! ## Claim C5 -/

/-- C5: the safety gate `_is_public_url(u)` returns true only if `u`'s
scheme is exactly `http` or `https`, a hostname is present, hostname
resolution succeeds, and every resolved address parses and is neither
private-range, loopback nor link-local; it returns false on resolution
failure, on a missing hostname, and on a disallowed scheme (fails closed;
the catch-all for unexpected errors is vacuous in this total embedding). -/
theorem claim_C5_is_public_url (dns : Dns) (url : String) :
    (is_public_url dns url = true →
      (urlScheme url = "http" ∨ urlScheme url = "https") ∧
      ∃ host addrs, urlHostname url = some host ∧ dns host = .ok addrs ∧
        ∀ a ∈ addrs, ∃ ip, a = some ip ∧ ip.restricted = false) ∧
    (∀ host, urlHostname url = some host → dns host = .error () →
      is_public_url dns url = false) ∧
    (urlHostname url = none → is_public_url dns url = false) ∧
    (¬(urlScheme url = "http" ∨ urlScheme url = "https") →
      is_public_url dns url = false) := by
  refine ⟨fun h => ?_, fun host hh hd => ?_, fun hh => ?_, fun hs => ?_⟩
  · by_cases hsc : (urlScheme url == "http" || urlScheme url == "https") = true
    · refine ⟨by simpa using hsc, ?_⟩
      cases hh : urlHostname url with
      | none => exact absurd h (by simp [is_public_url, hsc, hh])
      | some host =>
        cases hd : dns host with
        | error e => exact absurd h (by simp [is_public_url, hsc, hh, hd])
        | ok addrs =>
          have hall : addrs.all (fun a =>
              match a with
              | none => false
              | some ip => !ip.restricted) = true := by
            simpa [is_public_url, hsc, hh, hd] using h
          refine ⟨host, addrs, rfl, hd, fun a ha => ?_⟩
          have hone := List.all_eq_true.mp hall a ha
          cases a with
          | none => simp at hone
          | some ip => exact ⟨ip, rfl, by simpa using hone⟩
    · exact absurd h (by simp [is_public_url, hsc])
  · by_cases hsc : (urlScheme url == "http" || urlScheme url == "https") = true <;>
      simp [is_public_url, hsc, hh, hd]
  · by_cases hsc : (urlScheme url == "http" || urlScheme url == "https") = true <;>
      simp [is_public_url, hsc, hh]
  · have hsc : (urlScheme url == "http" || urlScheme url == "https") = false := by
      rcases Bool.eq_false_or_eq_true (urlScheme url == "http" || urlScheme url == "https")
        with hb | hb
      · exact absurd (by simpa using hb) hs
      · exact hb
    simp [is_public_url, hsc]

/-- DNS resolving one public host and failing on everything else. -/
def exampleDns : Dns :=
  fun h => if h == "example.com" then .ok [some (.v4 93 184 216 34)] else .error ()

/-- Witness for C5: a public URL passes the gate with its consequents, an
unresolvable hostname fails closed, a hostless URL fails, and a `file`
scheme fails. -/
theorem claim_C5_is_public_url_witness :
    ((urlScheme "http://example.com/x" = "http" ∨
        urlScheme "http://example.com/x" = "https") ∧
      ∃ host addrs, urlHostname "http://example.com/x" = some host ∧
        exampleDns host = .ok addrs ∧
        ∀ a ∈ addrs, ∃ ip, a = some ip ∧ ip.restricted = false) ∧
      is_public_url exampleDns "http://unresolvable.internal/x" = false ∧
      is_public_url exampleDns "http:///x" = false ∧
      is_public_url exampleDns "file:///etc/passwd" = false :=
  ⟨(claim_C5_is_public_url exampleDns "http://example.com/x").1 (by decide),
    (claim_C5_is_public_url exampleDns "http://unresolvable.internal/x").2.1
      "unresolvable.internal" (by decide) rfl,
    (claim_C5_is_public_url exampleDns "http:///x").2.2.1 (by decide),
    (claim_C5_is_public_url exampleDns "file:///etc/passwd").2.2.2 (by decide)⟩

end Sunstone
